import Mathlib

/-!
Verification of the core scrapbook modules of PyWebScrapBook: a shallow
embedding of `webscrapbook/scrapbook/cache.py` (static site generator) and
`webscrapbook/scrapbook/indexer.py` (indexer and favicon cacher), together
with theorems about the tree walk, the incremental write policy, the
provenance extractors, id resolution and favicon caching.

Conventions of the embedding:
* Python dicts holding item metadata become association lists
  `List (String × Option String)`; a stored `None` and a missing key are
  both read back as `none` (the source only distinguishes them for keys
  that are always present in `DEFAULT_META`).
* Machine-independent external collaborators (the repository host, the
  network, the filesystem, `mimetypes`) become fields of a `World` /
  `Book` record so that theorems quantify over their behaviour.
* Generator functions become functions returning an event list next to
  their result; a Python exception that the source does not catch becomes
  a `PyResult.exn` value.
-/

/-- Severity and message of a progress/log event (the `Info` objects the
generators yield). -/
structure Info where
  sev : String
  msg : String
deriving DecidableEq

/-- Python exception kinds that can escape the modelled code paths. -/
inductive PyErr where
  | valueError
  | indexError
  | attributeError
  | nameError
deriving DecidableEq

/-- Outcome of running modelled Python code: a normal value or an uncaught
exception. -/
inductive PyResult (α : Type) where
  | ok (a : α)
  | exn (e : PyErr)
deriving DecidableEq

/-- A Python dict with string keys whose values may be `None`. -/
abbrev MetaDict := List (String × Option String)

/-- Lookup in an association list (first binding wins, like a dict). -/
def lookupA {α : Type} : List (String × α) → String → Option α
  | [], _ => none
  | (k0, v) :: rest, k => if k0 = k then some v else lookupA rest k

/-- Dict update: replace the first binding of the key or append a new one. -/
def updateA {α : Type} : List (String × α) → String → α → List (String × α)
  | [], k, v => [(k, v)]
  | (k0, v0) :: rest, k, v =>
      if k0 = k then (k, v) :: rest else (k0, v0) :: updateA rest k v

/-- `meta.get(key)` on a metadata dict: missing key and stored `None` both
give `none`. -/
def dget (md : MetaDict) (k : String) : Option String :=
  (lookupA md k).join

/-- `meta.get(key, '')` on a metadata dict. -/
def sget (md : MetaDict) (k : String) : String :=
  (dget md k).getD ""

/-- `meta[key] = value` for a string value. -/
def dset (md : MetaDict) (k : String) (v : String) : MetaDict :=
  updateA md k (some v)

theorem lookupA_updateA_self {α : Type} (m : List (String × α)) (k : String) (v : α) :
    lookupA (updateA m k v) k = some v := by
  induction m with
  | nil => simp [lookupA, updateA]
  | cons h t ih =>
      obtain ⟨k0, v0⟩ := h
      by_cases hk : k0 = k <;> simp [lookupA, updateA, hk, ih]

theorem lookupA_updateA_ne {α : Type} (m : List (String × α)) (k k2 : String) (v : α)
    (h : k ≠ k2) : lookupA (updateA m k v) k2 = lookupA m k2 := by
  induction m with
  | nil => simp [lookupA, updateA, h]
  | cons hd t ih =>
      obtain ⟨k0, v0⟩ := hd
      by_cases hk : k0 = k
      · subst hk
        simp [updateA, lookupA, h]
      · by_cases hk2 : k0 = k2 <;> simp [updateA, lookupA, hk, hk2, ih, Ne.symm h]

/-- Keys of an association list. -/
def keysA {α : Type} (m : List (String × α)) : List String :=
  m.map Prod.fst

/-- A stronger filter keeps at most as many elements as a weaker one. -/
theorem length_filter_le_of_imp {α : Type} (l : List α) (p q : α → Bool)
    (hsub : ∀ x, q x = true → p x = true) :
    (l.filter q).length ≤ (l.filter p).length := by
  induction l with
  | nil => simp
  | cons x xs ih =>
      by_cases hq : q x = true
      · have hp := hsub x hq
        simp only [List.filter_cons, hp, hq, if_true]
        simpa using ih
      · have hq' : q x = false := by simpa using hq
        by_cases hp : p x = true
        · simp only [List.filter_cons, hp, hq', Bool.false_eq_true, if_true, if_false]
          simp only [List.length_cons]
          omega
        · have hp' : p x = false := by simpa using hp
          simpa only [List.filter_cons, hp', hq', Bool.false_eq_true, if_false] using ih

/-- Strictly fewer elements survive a filter that rejects a list element
accepted by a weaker filter. -/
theorem length_filter_lt_length_filter {α : Type} (l : List α) (p q : α → Bool)
    (hsub : ∀ x, q x = true → p x = true) (a : α) (ha : a ∈ l)
    (hpa : p a = true) (hqa : q a = false) :
    (l.filter q).length < (l.filter p).length := by
  induction l with
  | nil => cases ha
  | cons x xs ih =>
      rcases List.mem_cons.mp ha with h | h
      · subst h
        have hlen : (xs.filter q).length ≤ (xs.filter p).length :=
          length_filter_le_of_imp xs p q hsub
        simp only [List.filter_cons, hpa, hqa, Bool.false_eq_true, if_true, if_false]
        simp only [List.length_cons]
        omega
      · have ihx := ih h
        by_cases hq : q x = true
        · have hp := hsub x hq
          simp only [List.filter_cons, hp, hq, if_true]
          simpa using ihx
        · have hq' : q x = false := by simpa using hq
          by_cases hp : p x = true
          · simp only [List.filter_cons, hp, hq', Bool.false_eq_true, if_true, if_false]
            simp only [List.length_cons]
            omega
          · have hp' : p x = false := by simpa using hp
            simpa only [List.filter_cons, hp', hq', Bool.false_eq_true, if_false] using ihx

/-!
## Decimal digits and the canonical timestamp id

`util.datetime_to_id` (external to the analysed files) formats a UTC
datetime as the canonical 17-digit timestamp id `YYYYMMDDhhmmssSSS`.
Modelled from the spec: datetimes are abstracted to a natural number of
milliseconds, and the id is its decimal representation zero-padded to 17
digits.
-/

/-- Fuelled little-endian decimal digit extraction (the fuel only bounds
the recursion depth; any fuel at least the value itself is enough). -/
def digitsLEAux : Nat → Nat → List Nat
  | _, 0 => []
  | 0, _ + 1 => []
  | fuel + 1, n + 1 => ((n + 1) % 10) :: digitsLEAux fuel ((n + 1) / 10)

/-- Little-endian decimal digits of a natural number (empty for zero). -/
def digitsLE (n : Nat) : List Nat :=
  digitsLEAux n n

theorem digitsLEAux_congr : ∀ f1 f2 n : Nat, n ≤ f1 → n ≤ f2 →
    digitsLEAux f1 n = digitsLEAux f2 n := by
  intro f1
  induction f1 with
  | zero =>
      intro f2 n h1 _
      have : n = 0 := by omega
      subst this
      cases f2 <;> rfl
  | succ f ih =>
      intro f2 n h1 h2
      match n, f2 with
      | 0, f2 => cases f2 <;> rfl
      | m + 1, f2 + 1 =>
          show ((m + 1) % 10) :: digitsLEAux f ((m + 1) / 10) =
            ((m + 1) % 10) :: digitsLEAux f2 ((m + 1) / 10)
          have hd : (m + 1) / 10 < m + 1 := Nat.div_lt_self (Nat.succ_pos m) (by omega)
          rw [ih f2 ((m + 1) / 10) (by omega) (by omega)]

theorem digitsLE_succ (m : Nat) :
    digitsLE (m + 1) = ((m + 1) % 10) :: digitsLE ((m + 1) / 10) := by
  show ((m + 1) % 10) :: digitsLEAux m ((m + 1) / 10) = _
  have hd : (m + 1) / 10 < m + 1 := Nat.div_lt_self (Nat.succ_pos m) (by omega)
  rw [digitsLEAux_congr m ((m + 1) / 10) ((m + 1) / 10) (by omega) (by omega)]
  rfl

/-- Big-endian decimal digits (`[0]` for zero, like `repr`). -/
def natDigits (n : Nat) : List Nat :=
  if n = 0 then [0] else (digitsLE n).reverse

/-- Decimal digits zero-padded on the left to (at least) 17 digits. -/
def padTimestampDigits (n : Nat) : List Nat :=
  List.replicate (17 - (natDigits n).length) 0 ++ natDigits n

/-- Modelled from the spec: `util.datetime_to_id`, the canonical
17-digit timestamp id of a datetime (taken as milliseconds). -/
def datetime_to_id (n : Nat) : String :=
  String.mk ((padTimestampDigits n).map Nat.digitChar)

/-- Numeric value of a decimal digit character. -/
def charDigit (c : Char) : Nat := c.toNat - 48

/-- Value of big-endian decimal digits. -/
def valBE (l : List Nat) : Nat := l.foldl (fun a d => 10 * a + d) 0

/-- Numeric value of the decimal digits of a string. -/
def strDigitsVal (s : String) : Nat :=
  s.data.foldl (fun a c => 10 * a + charDigit c) 0

theorem valBE_go (l : List Nat) (a : Nat) :
    l.foldl (fun a d => 10 * a + d) a = a * 10 ^ l.length + valBE l := by
  induction l generalizing a with
  | nil => simp [valBE]
  | cons d ds ih =>
      have h1 : (d :: ds).foldl (fun a d => 10 * a + d) a =
          ds.foldl (fun a d => 10 * a + d) (10 * a + d) := rfl
      have h2 : valBE (d :: ds) = ds.foldl (fun a d => 10 * a + d) (10 * 0 + d) := rfl
      rw [h1, h2, ih (10 * a + d), ih (10 * 0 + d)]
      simp only [List.length_cons, pow_succ]
      ring

theorem valBE_append_singleton (l : List Nat) (d : Nat) :
    valBE (l ++ [d]) = 10 * valBE l + d := by
  simp only [valBE, List.foldl_append, List.foldl]

theorem valBE_replicate_zero_append (k : Nat) (l : List Nat) :
    valBE (List.replicate k 0 ++ l) = valBE l := by
  induction k with
  | zero => simp
  | succ k ih =>
      simp only [List.replicate, List.cons_append, valBE, List.foldl] at *
      simpa using ih

theorem valBE_digitsLE_reverse (n : Nat) : valBE (digitsLE n).reverse = n := by
  induction n using Nat.strong_induction_on with
  | _ n ih =>
      match n with
      | 0 => rfl
      | m + 1 =>
          rw [digitsLE_succ]
          simp only [List.reverse_cons]
          rw [valBE_append_singleton]
          rw [ih ((m + 1) / 10) (Nat.div_lt_self (Nat.succ_pos m) (by omega))]
          omega

theorem valBE_natDigits (n : Nat) : valBE (natDigits n) = n := by
  by_cases h : n = 0
  · subst h; simp [natDigits, valBE]
  · simp only [natDigits, h, if_false]
    exact valBE_digitsLE_reverse n

theorem valBE_padTimestampDigits (n : Nat) : valBE (padTimestampDigits n) = n := by
  rw [padTimestampDigits, valBE_replicate_zero_append, valBE_natDigits]

theorem digitsLE_lt_ten (n : Nat) : ∀ d ∈ digitsLE n, d < 10 := by
  induction n using Nat.strong_induction_on with
  | _ n ih =>
      match n with
      | 0 => intro d hd; cases hd
      | m + 1 =>
          rw [digitsLE_succ]
          intro d hd
          rcases List.mem_cons.mp hd with h | h
          · subst h; exact Nat.mod_lt _ (by omega)
          · exact ih ((m + 1) / 10) (Nat.div_lt_self (Nat.succ_pos m) (by omega)) d h

theorem padTimestampDigits_lt_ten (n : Nat) : ∀ d ∈ padTimestampDigits n, d < 10 := by
  intro d hd
  rcases List.mem_append.mp hd with h | h
  · have := List.eq_of_mem_replicate h
    omega
  · by_cases hn : n = 0
    · subst hn
      simp [natDigits] at h
      omega
    · simp only [natDigits, hn, if_false, List.mem_reverse] at h
      exact digitsLE_lt_ten n d h

theorem charDigit_digitChar (d : Nat) (h : d < 10) :
    charDigit (Nat.digitChar d) = d := by
  interval_cases d <;> decide

theorem strDigitsVal_mk_digits (l : List Nat) (hl : ∀ d ∈ l, d < 10) :
    strDigitsVal (String.mk (l.map Nat.digitChar)) = valBE l := by
  have : ∀ (a : Nat),
      (l.map Nat.digitChar).foldl (fun a c => 10 * a + charDigit c) a =
        l.foldl (fun a d => 10 * a + d) a := by
    induction l with
    | nil => intro a; simp
    | cons d ds ih =>
        intro a
        have hd := hl d (List.mem_cons_self d ds)
        simp only [List.map, List.foldl]
        rw [charDigit_digitChar d hd]
        exact ih (fun x hx => hl x (List.mem_cons_of_mem d hx)) _
  simpa [strDigitsVal, valBE] using this 0

/-- The decimal value of the canonical id recovers the timestamp. -/
theorem strDigitsVal_datetime_to_id (n : Nat) :
    strDigitsVal (datetime_to_id n) = n := by
  rw [datetime_to_id,
    strDigitsVal_mk_digits _ (padTimestampDigits_lt_ten n),
    valBE_padTimestampDigits]

/-- The canonical timestamp id function is injective. -/
theorem datetime_to_id_injective (m n : Nat)
    (h : datetime_to_id m = datetime_to_id n) : m = n := by
  have := congrArg strDigitsVal h
  rwa [strDigitsVal_datetime_to_id, strDigitsVal_datetime_to_id] at this

/-- Decimal string of a natural number (for hash file names). -/
def natToDecString (n : Nat) : String :=
  String.mk ((natDigits n).map Nat.digitChar)

/-- Modelled from the spec: `util.checksum`, the content hash of a byte
sequence used both by the incremental writer and the favicon cache (the
source delegates to a cryptographic digest; only determinism and
congruence matter here). -/
def checksum (bs : List Nat) : Nat :=
  bs.foldl (fun a b => (a * 131 + b + 17) % 1000000007) 5381

/-!
## String, URL and path helpers (modelling the Python stdlib collaborators)
-/

/-- Break a character list at the first occurrence of a character. -/
def breakAtChar : List Char → Char → (List Char × Option (List Char))
  | [], _ => ([], none)
  | x :: xs, c =>
      if x = c then ([], some xs)
      else
        let r := breakAtChar xs c
        (x :: r.1, r.2)

/-- Take the longest prefix satisfying a predicate, and the rest. -/
def spanChars (p : Char → Bool) : List Char → (List Char × List Char)
  | [] => ([], [])
  | x :: xs =>
      if p x then
        let r := spanChars p xs
        (x :: r.1, r.2)
      else ([], x :: xs)

/-- Lowercase a string (character-wise, like `str.lower` for ASCII). -/
def strToLower (s : String) : String :=
  String.mk (s.data.map Char.toLower)

/-- Strip leading and trailing whitespace (like `str.strip`). -/
def strTrim (s : String) : String :=
  String.mk (((s.data.dropWhile Char.isWhitespace).reverse.dropWhile
    Char.isWhitespace).reverse)

/-- Split on a single separator character (like `str.split(sep)`). -/
def splitOnCharAux : List Char → Char → List Char → List String
  | [], _, acc => [String.mk acc.reverse]
  | c :: cs, sep, acc =>
      if c = sep then String.mk acc.reverse :: splitOnCharAux cs sep []
      else splitOnCharAux cs sep (c :: acc)

/-- Split a string on a separator character. -/
def splitOnChar (s : String) (sep : Char) : List String :=
  splitOnCharAux s.data sep []

/-- Join strings with a separator. -/
def joinWith (sep : String) : List String → String
  | [] => ""
  | [x] => x
  | x :: xs => x ++ sep ++ joinWith sep xs

/-- Whether `pre` is a prefix of `s`. -/
def strStartsWith (s pre : String) : Bool :=
  pre.data.isPrefixOf s.data

/-- Whether `suf` is a suffix of `s`. -/
def strEndsWith (s suf : String) : Bool :=
  suf.data.reverse.isPrefixOf s.data.reverse

/-- Drop the first `n` characters of a string. -/
def strDrop (s : String) (n : Nat) : String :=
  String.mk (s.data.drop n)

/-- Result of `urllib.parse.urlsplit`. -/
structure UrlParts where
  scheme : String
  netloc : String
  path : String
  query : String
  fragment : String
deriving DecidableEq

/-- Characters allowed in a URL scheme after the first letter. -/
def isSchemeChar (c : Char) : Bool :=
  c.isAlphanum || c = '+' || c = '-' || c = '.'

/-- Modelled from the spec: `urllib.parse.urlsplit`. Splits off a scheme
(letter followed by scheme characters, before a colon), a `//`-prefixed
netloc, a fragment after the first `#`, and a query after the first `?`. -/
def urlsplit (url : String) : UrlParts :=
  let cs := url.data
  let (scheme, rest) :=
    match breakAtChar cs ':' with
    | (pre, some rest) =>
        if pre ≠ [] && (pre.headD 'a').isAlpha && pre.all isSchemeChar then
          (String.mk (pre.map Char.toLower), rest)
        else ("", cs)
    | (_, none) => ("", cs)
  let (netloc, rest) :=
    match rest with
    | '/' :: '/' :: r =>
        let (nl, r2) := spanChars (fun c => !(c = '/' || c = '?' || c = '#')) r
        (String.mk nl, r2)
    | r => ("", r)
  let (beforeFrag, frag) := breakAtChar rest '#'
  let fragment := (frag.map String.mk).getD ""
  let (path, q) := breakAtChar beforeFrag '?'
  let query := (q.map String.mk).getD ""
  ⟨scheme, netloc, String.mk path, query, fragment⟩

/-- Hexadecimal value of a character, if any. -/
def hexVal (c : Char) : Option Nat :=
  if '0' ≤ c && c ≤ '9' then some (c.toNat - 48)
  else if 'a' ≤ c && c ≤ 'f' then some (c.toNat - 87)
  else if 'A' ≤ c && c ≤ 'F' then some (c.toNat - 55)
  else none

/-- Modelled from the spec: `urllib.parse.unquote`, percent-decoding
(byte values are mapped directly to character codes). -/
def percentDecodeChars : List Char → List Char
  | [] => []
  | '%' :: h1 :: h2 :: rest =>
      match hexVal h1, hexVal h2 with
      | some a, some b => Char.ofNat (16 * a + b) :: percentDecodeChars rest
      | _, _ => '%' :: percentDecodeChars (h1 :: h2 :: rest)
  | c :: rest => c :: percentDecodeChars rest

/-- Modelled from the spec: `urllib.parse.unquote` on strings. -/
def unquote (s : String) : String :=
  String.mk (percentDecodeChars s.data)

/-- Modelled from the spec: `os.path.join` of two segments with `/`. -/
def joinPath (a b : String) : String :=
  if a = "" then b
  else if strEndsWith a "/" then a ++ b
  else a ++ "/" ++ b

/-- The part of a path after the last `/` (like `os.path.basename`). -/
def basenamePath (s : String) : String :=
  match (splitOnChar s '/').getLast? with
  | some b => b
  | none => s

/-- The part of a path before the last `/` (like `os.path.dirname`;
empty when there is no separator). -/
def dirnamePath (s : String) : String :=
  let segs := splitOnChar s '/'
  match segs with
  | [] => ""
  | [_] => ""
  | _ => joinWith "/" (segs.dropLast)

/-- Modelled from the spec: `os.path.splitext`: split off the extension
after the last dot of the final path component (a leading dot of the
component does not start an extension). -/
def splitext (s : String) : String × String :=
  let b := basenamePath s
  let (dots, core) := spanChars (fun c => c = '.') b.data
  match breakAtChar core.reverse '.' with
  | (_, none) => (s, "")
  | (revExt, some _) =>
      let ext := String.mk ('.' :: revExt.reverse)
      let stem := String.mk (s.data.take (s.data.length - ext.data.length))
      let _ := dots
      (stem, ext)

/-- Modelled from the spec: `os.path.normpath`: resolve `.`, `..` and
duplicate separators in a relative or absolute `/`-separated path. -/
def normPath (s : String) : String :=
  let segs := splitOnChar s '/' 
  let out := segs.foldl
    (fun (acc : List String) seg =>
      if seg = "" || seg = "." then acc
      else if seg = ".." then
        match acc with
        | [] => [".."]
        | top :: rest => if top = ".." then ".." :: acc else rest
      else seg :: acc) []
  let body := joinWith "/" out.reverse
  if strStartsWith s "/" then "/" ++ body
  else if body = "" then "." else body

/-- Accumulator pass of `strTokens`. -/
def wsTokensAux : List Char → List Char → List String
  | [], acc => if acc = [] then [] else [String.mk acc.reverse]
  | c :: cs, acc =>
      if c.isWhitespace then
        if acc = [] then wsTokensAux cs []
        else String.mk acc.reverse :: wsTokensAux cs []
      else wsTokensAux cs (c :: acc)

/-- `str.split()` with no argument: split on whitespace runs, dropping
empty tokens. -/
def strTokens (s : String) : List String :=
  wsTokensAux s.data []

/-- Base64 alphabet. -/
def b64Alphabet : List Char :=
  "ABCDEFGHIJKLMNOPQRSTUVWXYZabcdefghijklmnopqrstuvwxyz0123456789+/".data

/-- One base64 alphabet character. -/
def b64Char (n : Nat) : Char := b64Alphabet.getD n 'A'

/-- Modelled from the spec: `base64.b64encode` on a byte list. -/
def base64encode : List Nat → List Char
  | [] => []
  | [a] =>
      [b64Char (a / 4), b64Char (a % 4 * 16), '=', '=']
  | [a, b] =>
      [b64Char (a / 4), b64Char (a % 4 * 16 + b / 16), b64Char (b % 16 * 4), '=']
  | a :: b :: c :: rest =>
      b64Char (a / 4) :: b64Char (a % 4 * 16 + b / 16) ::
      b64Char (b % 16 * 4 + c / 64) :: b64Char (c % 64) :: base64encode rest

/-- Modelled from the spec: `util.parse_content_type`: the MIME type is
the lowercased, stripped part of the header before any `;`. -/
def parse_content_type (ct : Option String) : Option String :=
  ct.map (fun s => strToLower (strTrim ((splitOnChar s ';').headD "")))

/-- `COMMON_MIME_EXTENSION` from `indexer.py`. -/
def COMMON_MIME_EXTENSION : List (String × String) :=
  [("application/octet-stream", ""),
   ("text/html", ".html"),
   ("application/xhtml+xml", ".xhtml"),
   ("image/svg+xml", ".svg"),
   ("image/jpeg", ".jpg"),
   ("audio/mpeg", ".mp3"),
   ("audio/ogg", ".oga"),
   ("video/mpeg", ".mpeg"),
   ("video/mp4", ".mp4"),
   ("video/ogg", ".ogv"),
   ("application/ogg", ".ogx")]

/-!
## Indexer id synthesis (`indexer.py`, `Indexer._index_file`, lines 234-239)
-/

/-- Modelled from the spec: `util.id_to_datetime` succeeds exactly on
canonical timestamp ids (17 decimal digits). -/
def id_to_datetime (s : String) : Option Nat :=
  if s.length = 17 && s.data.all (fun c => c.isDigit) then
    some (strDigitsVal s)
  else none

/-- The `while id in self.book.meta` collision loop: keep incrementing the
timestamp by one millisecond until the canonical id is unused. -/
def gen_new_id_loop (metaIds : List String) (ts : Nat) : String :=
  if datetime_to_id ts ∈ metaIds then gen_new_id_loop metaIds (ts + 1)
  else datetime_to_id ts
termination_by
  (metaIds.filter (fun s =>
    decide (ts ≤ strDigitsVal s) && decide (datetime_to_id (strDigitsVal s) = s))).length
decreasing_by
  apply length_filter_lt_length_filter
  · intro x hx
    simp only [Bool.and_eq_true, decide_eq_true_eq] at hx ⊢
    exact ⟨by omega, hx.2⟩
  · assumption
  · simp [strDigitsVal_datetime_to_id]
  · have h1 : decide (ts + 1 ≤ strDigitsVal (datetime_to_id ts)) = false := by
      rw [strDigitsVal_datetime_to_id]
      exact decide_eq_false (by omega)
    simp [h1]

/-- The collision loop only stops at an id that is not in the store. -/
theorem gen_new_id_loop_not_mem (metaIds : List String) (ts : Nat) :
    gen_new_id_loop metaIds ts ∉ metaIds := by
  induction ts using gen_new_id_loop.induct metaIds with
  | case1 ts hmem ih =>
      rw [gen_new_id_loop, if_pos hmem]
      exact ih
  | case2 ts hmem =>
      rw [gen_new_id_loop, if_neg hmem]
      exact hmem

/-- Derivation of an item id from the file path when no explicit id is
given (`Indexer._index_file`, lines 226-239): take the base filename
(replacing a trailing `index.html` by its directory name), use it when it
is a canonical timestamp id that is unused, otherwise synthesize a fresh
timestamp id starting from the current time. -/
def resolve_derived_id (metaIds : List String) (basepath : String) (now : Nat) : String :=
  let basename0 := basenamePath basepath
  let basename :=
    if basename0 = "index.html" then basenamePath (dirnamePath basepath)
    else basename0
  let id := (splitext basename).1
  if (id_to_datetime id).isNone || id ∈ metaIds then
    gen_new_id_loop metaIds now
  else id

/-- Core step of the derived-id branch: whichever side of the reuse test
is taken, the resulting id is unused. -/
theorem resolve_id_branch_not_mem (metaIds : List String) (now : Nat) (id : String) :
    (if (id_to_datetime id).isNone || id ∈ metaIds then gen_new_id_loop metaIds now
     else id) ∉ metaIds := by
  split
  · exact gen_new_id_loop_not_mem metaIds now
  · rename_i hcond
    intro hmem
    exact hcond (by simp [hmem])

/-- A derived id is never an id already present in the store. -/
theorem resolve_derived_id_not_mem (metaIds : List String) (basepath : String) (now : Nat) :
    resolve_derived_id metaIds basepath now ∉ metaIds := by
  simp only [resolve_derived_id]
  exact resolve_id_branch_not_mem metaIds now _

/-!
## Static site generator (`cache.py`)

`StaticSiteGenerator` and its helpers. The `Book`, template engine and
`util.get_relative_url` are external collaborators and appear as fields.
-/

/-- The `StaticIndexItem` namedtuple of `cache.py` (events `start-container`,
`start`, `end`, `end-container`; fields default to `None`). -/
structure StaticIndexItem where
  event : String
  level : Nat
  id : Option String := none
  type : Option String := none
  marked : Option String := none
  title : Option String := none
  url : Option String := none
  icon : Option String := none
  source : Option String := none
  comment : Option String := none
deriving DecidableEq

/-- The book as seen by the static site generator: metadata store, TOC and
directory layout, with `util.get_relative_url` as an external capability
(arguments: target, base, `path_is_dir`). -/
structure CacheBook where
  meta : List (String × MetaDict)
  toc : List (String × List String)
  dataDir : String
  treeDir : String
  relUrl : String → String → Bool → String

/-- A container boundary event. -/
def containerItem (ev : String) (level : Nat) : StaticIndexItem :=
  { event := ev, level := level }

/-- The per-item display fields computed inside `add_child_items`
(`cache.py`, lines 213-250): title, href and icon of one TOC node. -/
def static_item_fields (book : CacheBook) (id : String) (md : MetaDict) :
    String × String × String :=
  let metaType := sget md "type"
  let metaIndex := sget md "index"
  let metaTitle := sget md "title"
  let metaSource := sget md "source"
  let metaIcon := sget md "icon"
  if metaType ≠ "separator" then
    let title := if metaTitle = "" then id else metaTitle
    let href :=
      if metaType ≠ "folder" then
        if metaType = "bookmark" && metaSource ≠ "" then metaSource
        else if metaIndex ≠ "" then
          let base := book.relUrl (joinPath book.dataDir metaIndex) book.treeDir false
          let frag := (urlsplit metaSource).fragment
          if frag ≠ "" then base ++ "#" ++ frag else base
        else ""
      else ""
    let icon :=
      if metaIcon ≠ "" && (urlsplit metaIcon).scheme = "" then
        book.relUrl (joinPath book.dataDir (dirnamePath metaIndex)) book.treeDir true ++ metaIcon
      else metaIcon
    (title, href, icon)
  else (metaTitle, "", "")

/-- A `start` or `end` event for one TOC node, carrying its display
fields. -/
def static_index_entry (ev : String) (book : CacheBook) (id : String) (md : MetaDict)
    (level : Nat) : StaticIndexItem :=
  let f := static_item_fields book id md
  { event := ev, level := level, id := some id, type := some (sget md "type"),
    marked := some (sget md "marked"), title := some f.1, url := some f.2.1,
    icon := some f.2.2, source := some (sget md "source"),
    comment := some (sget md "comment") }

/-- Number of metadata ids not on the current ancestor chain (the
termination measure of the recursive walk). -/
def chainlessCount (book : CacheBook) (chain : List String) : Nat :=
  ((keysA book.meta).filter (fun i => decide (i ∉ chain))).length

theorem mem_keysA_of_lookupA {α : Type} (m : List (String × α)) (k : String) (v : α)
    (h : lookupA m k = some v) : k ∈ keysA m := by
  induction m with
  | nil => simp [lookupA] at h
  | cons hd t ih =>
      obtain ⟨k0, v0⟩ := hd
      by_cases hk : k0 = k
      · subst hk
        simp [keysA]
      · rw [lookupA, if_neg hk] at h
        simp only [keysA, List.map_cons, List.mem_cons]
        exact Or.inr (ih h)

theorem chainlessCount_cons_lt (book : CacheBook) (chain : List String) (id : String)
    (hmem : id ∈ keysA book.meta) (hnot : id ∉ chain) :
    chainlessCount book (id :: chain) < chainlessCount book chain := by
  refine length_filter_lt_length_filter _ _ _ ?_ id hmem ?_ ?_
  · intro x hx
    simp only [decide_eq_true_eq] at hx ⊢
    intro hc
    exact hx (List.mem_cons_of_mem id hc)
  · simp only [decide_eq_true_eq]
    exact hnot
  · simp

/-- Lexicographic step used by the termination proof of the walk. -/
theorem lex_pair_step {c c2 l : Nat} (h : c2 < c) :
    Prod.Lex (· < ·) (· < ·) (c2 + 1, (0 : Nat)) (c, l + 1) := by
  rcases Nat.lt_or_ge (c2 + 1) c with h1 | h1
  · exact Prod.Lex.left _ _ h1
  · have heq : c2 + 1 = c := by omega
    subst heq
    exact Prod.Lex.right _ (by omega)

mutual

/-- `add_child_items` from `StaticSiteGenerator._generate_static_index`
(`cache.py`, lines 198-265): look up the children of a node, drop child
ids without metadata, and emit a container wrapping the child events. -/
def add_child_items (book : CacheBook) (chain : List String) (parentId : String)
    (level : Nat) : List StaticIndexItem :=
  match lookupA book.toc parentId with
  | none => []
  | some toc0 =>
      let toc := toc0.filter (fun i => (lookupA book.meta i).isSome)
      if toc = [] then []
      else
        containerItem "start-container" level ::
          (child_items_loop book chain toc (level + 1) ++
            [containerItem "end-container" level])
termination_by (chainlessCount book chain + 1, 0)
decreasing_by
  apply Prod.Lex.left
  omega

/-- The `for id in toc` loop body of `add_child_items`: emit a `start`
event, recurse into the children unless the id is already on the ancestor
chain, then emit the matching `end` event. -/
def child_items_loop (book : CacheBook) (chain : List String) (ids : List String)
    (level : Nat) : List StaticIndexItem :=
  match ids with
  | [] => []
  | id :: rest =>
      match hmd : lookupA book.meta id with
      | none => child_items_loop book chain rest level
      | some md =>
          static_index_entry "start" book id md level ::
            ((if hid : id ∈ chain then []
              else add_child_items book (id :: chain) id (level + 1)) ++
              (static_index_entry "end" book id md level ::
                child_items_loop book chain rest level))
termination_by (chainlessCount book chain, ids.length + 1)
decreasing_by
  · apply Prod.Lex.right
    simp only [List.length_cons]
    omega
  · exact lex_pair_step (chainlessCount_cons_lt book chain _
      (mem_keysA_of_lookupA _ _ _ hmd) hid)
  · apply Prod.Lex.right
    simp only [List.length_cons]
    omega

end

/-- `StaticSiteGenerator._generate_static_index` (`cache.py`, lines
190-270): walk the TOC from `root` with the ancestor chain initialised to
the root id. -/
def generate_static_index (book : CacheBook) : List StaticIndexItem :=
  add_child_items book ["root"] "root" 0

/-!
## Incremental write policy (`cache.py`, `_generate_resource_file` and
`_generate_page`)

The filesystem under the tree directory is modelled as an association list
of file contents plus one of modification times. `book.backup` is an
external capability that copies the old file elsewhere and never changes
the files modelled here.
-/

/-- Modelled filesystem state: contents and mtimes by path. -/
structure FState where
  files : List (String × List Nat)
  mtimes : List (String × Nat)
deriving DecidableEq

/-- Write a file: replace its bytes and stamp its mtime. -/
def fsWrite (fs : FState) (path : String) (content : List Nat) (now : Nat) : FState :=
  { files := updateA fs.files path content,
    mtimes := updateA fs.mtimes path now }

/-- `StaticSiteGenerator._generate_resource_file` (`cache.py`, lines
140-160): if the destination exists with the same size and the same
checksum as the static source, skip; otherwise back up and copy. -/
def generate_resource_file (fs : FState) (now : Nat) (srcContent : List Nat)
    (dst : String) : FState × List Info :=
  let ev0 := Info.mk "debug" ("Checking resource file " ++ dst)
  match lookupA fs.files dst with
  | some existing =>
      if srcContent.length = existing.length then
        if checksum srcContent = checksum existing then
          (fs, [ev0, Info.mk "debug" ("Skipped resource file " ++ dst)])
        else
          (fsWrite fs dst srcContent now,
            [ev0, Info.mk "info" ("Generating resource file " ++ dst)])
      else
        (fsWrite fs dst srcContent now,
          [ev0, Info.mk "info" ("Generating resource file " ++ dst)])
  | none =>
      (fsWrite fs dst srcContent now,
        [ev0, Info.mk "info" ("Generating resource file " ++ dst)])

/-- `StaticSiteGenerator._generate_page` (`cache.py`, lines 162-188):
render the template to an in-memory buffer (the rendered bytes are an
input here, the template engine being external); if the destination
exists with the same byte count and the same checksum, skip; otherwise
back up and overwrite. -/
def generate_page (fs : FState) (now : Nat) (dst : String) (rendered : List Nat) :
    FState × List Info :=
  let ev0 := Info.mk "debug" ("Checking page " ++ dst)
  match lookupA fs.files dst with
  | some existing =>
      if rendered.length = existing.length then
        if checksum rendered = checksum existing then
          (fs, [ev0, Info.mk "debug" ("Skipped page " ++ dst)])
        else
          (fsWrite fs dst rendered now, [ev0, Info.mk "info" ("Generating page " ++ dst)])
      else
        (fsWrite fs dst rendered now, [ev0, Info.mk "info" ("Generating page " ++ dst)])
  | none =>
      (fsWrite fs dst rendered now, [ev0, Info.mk "info" ("Generating page " ++ dst)])

/-- One build artifact: destination path, rendered/source bytes, and
whether it is a copied resource or a rendered page. -/
structure Artifact where
  dst : String
  content : List Nat
  isResource : Bool
deriving DecidableEq

/-- Process one artifact with the write policy matching its kind. -/
def build_artifact (fs : FState) (now : Nat) (a : Artifact) : FState × List Info :=
  if a.isResource then generate_resource_file fs now a.content a.dst
  else generate_page fs now a.dst a.content

/-- `StaticSiteGenerator.run` (`cache.py`, lines 106-138) restricted to
its filesystem effect: fold the write policy over the resource files and
the generated pages in order. -/
def build_run (fs : FState) (now : Nat) (arts : List Artifact) : FState :=
  arts.foldl (fun fs a => (build_artifact fs now a).1) fs

/-- The destination already holds content of identical length and
checksum (the skip condition of the write policy). -/
def artifactReady (fs : FState) (a : Artifact) : Prop :=
  ∃ c, lookupA fs.files a.dst = some c ∧
    a.content.length = c.length ∧ checksum a.content = checksum c

theorem generate_page_skip (fs : FState) (now : Nat) (dst : String)
    (rendered : List Nat) (c : List Nat) (hc : lookupA fs.files dst = some c)
    (hlen : rendered.length = c.length) (hsum : checksum rendered = checksum c) :
    generate_page fs now dst rendered =
      (fs, [Info.mk "debug" ("Checking page " ++ dst),
            Info.mk "debug" ("Skipped page " ++ dst)]) := by
  simp only [generate_page, hc, hlen, hsum, if_true]

theorem generate_resource_file_skip (fs : FState) (now : Nat) (src : List Nat)
    (dst : String) (c : List Nat) (hc : lookupA fs.files dst = some c)
    (hlen : src.length = c.length) (hsum : checksum src = checksum c) :
    generate_resource_file fs now src dst =
      (fs, [Info.mk "debug" ("Checking resource file " ++ dst),
            Info.mk "debug" ("Skipped resource file " ++ dst)]) := by
  simp only [generate_resource_file, hc, hlen, hsum, if_true]

theorem build_artifact_skip (fs : FState) (now : Nat) (a : Artifact)
    (h : artifactReady fs a) : (build_artifact fs now a).1 = fs := by
  obtain ⟨c, hc, hlen, hsum⟩ := h
  by_cases hr : a.isResource = true
  · rw [build_artifact, if_pos hr,
      generate_resource_file_skip fs now a.content a.dst c hc hlen hsum]
  · rw [build_artifact, if_neg hr,
      generate_page_skip fs now a.dst a.content c hc hlen hsum]

theorem build_artifact_ready (fs : FState) (now : Nat) (a : Artifact) :
    artifactReady (build_artifact fs now a).1 a := by
  by_cases hready : artifactReady fs a
  · rw [build_artifact_skip fs now a hready]
    exact hready
  · have hwrite : (build_artifact fs now a).1 = fsWrite fs a.dst a.content now := by
      rw [build_artifact]
      split
      · rw [generate_resource_file]
        cases hc : lookupA fs.files a.dst with
        | none => rfl
        | some c =>
            by_cases hlen : a.content.length = c.length
            · by_cases hsum : checksum a.content = checksum c
              · exact absurd ⟨c, hc, hlen, hsum⟩ hready
              · simp only [hc, hlen, hsum, if_true, if_false]
            · simp only [hc, hlen, if_false]
      · rw [generate_page]
        cases hc : lookupA fs.files a.dst with
        | none => rfl
        | some c =>
            by_cases hlen : a.content.length = c.length
            · by_cases hsum : checksum a.content = checksum c
              · exact absurd ⟨c, hc, hlen, hsum⟩ hready
              · simp only [hc, hlen, hsum, if_true, if_false]
            · simp only [hc, hlen, if_false]
    rw [hwrite]
    exact ⟨a.content, by simp [fsWrite, lookupA_updateA_self], rfl, rfl⟩

theorem build_artifact_frame (fs : FState) (now : Nat) (a : Artifact) (p : String)
    (hp : a.dst ≠ p) :
    lookupA (build_artifact fs now a).1.files p = lookupA fs.files p := by
  have hcase : (build_artifact fs now a).1 = fs ∨
      (build_artifact fs now a).1 = fsWrite fs a.dst a.content now := by
    rw [build_artifact]
    split
    · rw [generate_resource_file]
      cases hc : lookupA fs.files a.dst with
      | none => right; rfl
      | some c =>
          by_cases hlen : a.content.length = c.length
          · by_cases hsum : checksum a.content = checksum c
            · left; simp only [hc, hlen, hsum, if_true]
            · right; simp only [hc, hlen, hsum, if_true, if_false]
          · right; simp only [hc, hlen, if_false]
    · rw [generate_page]
      cases hc : lookupA fs.files a.dst with
      | none => right; rfl
      | some c =>
          by_cases hlen : a.content.length = c.length
          · by_cases hsum : checksum a.content = checksum c
            · left; simp only [hc, hlen, hsum, if_true]
            · right; simp only [hc, hlen, hsum, if_true, if_false]
          · right; simp only [hc, hlen, if_false]
  rcases hcase with h | h
  · rw [h]
  · rw [h]
    simp only [fsWrite]
    exact lookupA_updateA_ne fs.files a.dst p a.content hp

theorem build_run_skip_all (fs : FState) (now : Nat) (arts : List Artifact)
    (h : ∀ a ∈ arts, artifactReady fs a) : build_run fs now arts = fs := by
  induction arts with
  | nil => rfl
  | cons x rest ih =>
      have hx := build_artifact_skip fs now x (h x (List.mem_cons_self x rest))
      show build_run (build_artifact fs now x).1 now rest = fs
      rw [hx]
      exact ih (fun a ha => h a (List.mem_cons_of_mem x ha))

theorem build_run_frame (fs : FState) (now : Nat) (arts : List Artifact) (p : String)
    (hp : ∀ a ∈ arts, a.dst ≠ p) :
    lookupA (build_run fs now arts).files p = lookupA fs.files p := by
  induction arts generalizing fs with
  | nil => rfl
  | cons x rest ih =>
      show lookupA (build_run (build_artifact fs now x).1 now rest).files p = _
      rw [ih (build_artifact fs now x).1 (fun a ha => hp a (List.mem_cons_of_mem x ha))]
      exact build_artifact_frame fs now x p (hp x (List.mem_cons_self x rest))

theorem build_run_all_ready (fs : FState) (now : Nat) (arts : List Artifact)
    (hnodup : (arts.map Artifact.dst).Nodup) :
    ∀ a ∈ arts, artifactReady (build_run fs now arts) a := by
  induction arts generalizing fs with
  | nil => intro a ha; cases ha
  | cons x rest ih =>
      intro a ha
      have hnodup' : (rest.map Artifact.dst).Nodup := (List.nodup_cons.mp hnodup).2
      have hxnot : x.dst ∉ rest.map Artifact.dst := (List.nodup_cons.mp hnodup).1
      rcases List.mem_cons.mp ha with h | h
      · subst h
        have hready1 := build_artifact_ready fs now a
        obtain ⟨c, hc, hlen, hsum⟩ := hready1
        refine ⟨c, ?_, hlen, hsum⟩
        show lookupA (build_run (build_artifact fs now a).1 now rest).files a.dst = some c
        rw [build_run_frame _ now rest a.dst ?_]
        · exact hc
        · intro b hb hbdst
          exact hxnot (hbdst ▸ List.mem_map_of_mem Artifact.dst hb)
      · exact ih (build_artifact fs now x).1 hnodup' a h

/-- Running the builder again over the same artifacts changes nothing:
every write is skipped, so contents and mtimes are untouched. -/
theorem build_run_idempotent (fs : FState) (now1 now2 : Nat) (arts : List Artifact)
    (hnodup : (arts.map Artifact.dst).Nodup) :
    build_run (build_run fs now1 arts) now2 arts = build_run fs now1 arts :=
  build_run_skip_all _ now2 arts (build_run_all_ready fs now1 arts hnodup)

/-!
## Indexer (`indexer.py`): parsed documents and provenance extractors

The lxml tree is modelled by the accessors the indexer uses: the node
preceding the root element, the children of the root element, and the
meta/title/link elements in document order.
-/

/-- A node of the parsed document: a comment or an element. -/
inductive DocNode where
  | comment (text : String)
  | elem (tag : String)
deriving DecidableEq

/-- A `meta` element (attributes `name` and `content`). -/
structure MetaTag where
  name : Option String
  content : Option String
deriving DecidableEq

/-- A `title` element: its ancestor tags, its text, the serialized markup
of its children, and whether serializing raises `UnicodeDecodeError`. -/
structure TitleElem where
  ancestors : List String
  text : Option String
  childMarkup : String
  decodeFails : Bool
deriving DecidableEq

/-- A `link` element (attributes `rel` and `href`). -/
structure LinkElem where
  rel : Option String
  href : Option String
deriving DecidableEq

/-- A parsed web document as consumed by `Indexer._index_file`. -/
structure HtmlDoc where
  rootTag : String
  prevNode : Option DocNode
  children : List DocNode
  metaTags : List MetaTag
  titleElems : List TitleElem
  linkElems : List LinkElem
  rootAttrs : List (String × String)
deriving DecidableEq

/-- Match a literal character sequence at the head of the input. -/
def dropLiteral : List Char → List Char → Option (List Char)
  | [], rest => some rest
  | _ :: _, [] => none
  | l :: ls, c :: cs => if c = l then dropLiteral ls cs else none

/-- Digit characters to their numeric value. -/
def digitsToNat (l : List Char) : Nat :=
  l.foldl (fun a c => 10 * a + charDigit c) 0

/-- `REGEX_IE_DOC_COMMENT`: `^\s*saved from url=\((\d+)\)(\S+)\s*`,
returning the numeric length group and the URL group. -/
def parse_ie_comment (text : String) : Option (Nat × String) :=
  let r1 := (spanChars Char.isWhitespace text.data).2
  match dropLiteral "saved from url=(".data r1 with
  | none => none
  | some r2 =>
      let (ds, r3) := spanChars Char.isDigit r2
      if ds = [] then none
      else
        match dropLiteral ")".data r3 with
        | none => none
        | some r4 =>
            let (src, _) := spanChars (fun c => !c.isWhitespace) r4
            if src = [] then none
            else some (digitsToNat ds, String.mk src)

/-- `Indexer._handle_ie_meta` (`indexer.py`, lines 296-315): a comment
before the root element carrying `saved from url=(NN)URL` sets `source`
when the URL length matches the stamp. -/
def handle_ie_meta (md : MetaDict) (doc : HtmlDoc) : MetaDict :=
  match doc.prevNode with
  | none => md
  | some (DocNode.elem _) => md
  | some (DocNode.comment text) =>
      match parse_ie_comment text with
      | none => md
      | some (len, source) =>
          if source.length = len then dset md "source" source else md

/-- `REGEX_SF_DOC_COMMENT`:
`^\s+Page saved with SingleFile\s+url: (\S+)\s+saved date: ([^()]+)`. -/
def parse_sf_comment (text : String) : Option (String × String) :=
  let (ws1, r1) := spanChars Char.isWhitespace text.data
  if ws1 = [] then none
  else
    match dropLiteral "Page saved with SingleFile".data r1 with
    | none => none
    | some r2 =>
        let (ws2, r3) := spanChars Char.isWhitespace r2
        if ws2 = [] then none
        else
          match dropLiteral "url: ".data r3 with
          | none => none
          | some r4 =>
              let (src, r5) := spanChars (fun c => !c.isWhitespace) r4
              if src = [] then none
              else
                let (ws3, r6) := spanChars Char.isWhitespace r5
                if ws3 = [] then none
                else
                  match dropLiteral "saved date: ".data r6 with
                  | none => none
                  | some r7 =>
                      let (date, _) := spanChars (fun c => !(c = '(' || c = ')')) r7
                      if date = [] then none
                      else some (String.mk src, String.mk date)

/-- `REGEX_MAOXIAN_DOC_COMMENT`: `^\s*OriginalSrc: (\S+)`. -/
def parse_maoxian_comment (text : String) : Option String :=
  let r1 := (spanChars Char.isWhitespace text.data).2
  match dropLiteral "OriginalSrc: ".data r1 with
  | none => none
  | some r2 =>
      let (src, _) := spanChars (fun c => !c.isWhitespace) r2
      if src = [] then none else some (String.mk src)

/-- `REGEX_JS_DATE`: `^([^()]+)` (the date part of a JavaScript
`Date.toString`, before any parenthesised timezone name). -/
def parse_js_date_head (s : String) : Option String :=
  let (run, _) := spanChars (fun c => !(c = '(' || c = ')')) s.data
  if run = [] then none else some (String.mk run)

/-- Abbreviated weekday names accepted by `%a`. -/
def weekdayNames : List String :=
  ["Mon", "Tue", "Wed", "Thu", "Fri", "Sat", "Sun"]

/-- Abbreviated month names accepted by `%b`. -/
def monthNames : List String :=
  ["Jan", "Feb", "Mar", "Apr", "May", "Jun",
   "Jul", "Aug", "Sep", "Oct", "Nov", "Dec"]

/-- Match one of the given literal names, returning its 0-based index. -/
def dropOneOf (names : List String) (cs : List Char) : Option (Nat × List Char) :=
  match names with
  | [] => none
  | n :: rest =>
      match dropLiteral n.data cs with
      | some r => some (0, r)
      | none =>
          match dropOneOf rest cs with
          | some (i, r) => some (i + 1, r)
          | none => none

/-- Take one or two digits with a value in the given range. -/
def takeBoundedDigits (lo hi : Nat) (cs : List Char) : Option (Nat × List Char) :=
  let (ds, r) := spanChars Char.isDigit cs
  if ds = [] || 2 < ds.length then none
  else
    let v := digitsToNat ds
    if lo ≤ v && v ≤ hi then some (v, r) else none

/-- Modelled from the spec: `datetime.strptime` with the fixed format
`"%a %b %d %Y %H:%M:%S GMT%z "` used for SingleFile and SavePageWE
saved dates; returns an abstract millisecond value on success and
`none` (a raised `ValueError`) on any mismatch. -/
def parse_gmt_date (s : String) : Option Nat := do
  let cs := s.data
  let (_, r1) ← dropOneOf weekdayNames cs
  let (ws1, r2) := spanChars Char.isWhitespace r1
  if ws1 = [] then none
  else do
    let (mon, r3) ← dropOneOf monthNames r2
    let (ws2, r4) := spanChars Char.isWhitespace r3
    if ws2 = [] then none
    else do
      let (day, r5) ← takeBoundedDigits 1 31 r4
      let (ws3, r6) := spanChars Char.isWhitespace r5
      if ws3 = [] then none
      else do
        let (yds, r7) := spanChars Char.isDigit r6
        if yds.length ≠ 4 then none
        else do
          let year := digitsToNat yds
          let (ws4, r8) := spanChars Char.isWhitespace r7
          if ws4 = [] then none
          else do
            let (hour, r9) ← takeBoundedDigits 0 23 r8
            let r10 ← dropLiteral ":".data r9
            let (minute, r11) ← takeBoundedDigits 0 59 r10
            let r12 ← dropLiteral ":".data r11
            let (sec, r13) ← takeBoundedDigits 0 61 r12
            let (ws5, r14) := spanChars Char.isWhitespace r13
            if ws5 = [] then none
            else do
              let r15 ← dropLiteral "GMT".data r14
              match r15 with
              | sign :: z1 :: z2 :: z3 :: z4 :: r16 =>
                  if !(sign = '+' || sign = '-') then none
                  else if !(z1.isDigit && z2.isDigit && z3.isDigit && z4.isDigit) then none
                  else
                    let zmin := digitsToNat [z3, z4]
                    if 59 < zmin then none
                    else
                      let (ws6, r17) := spanChars Char.isWhitespace r16
                      if ws6 = [] || r17 ≠ [] then none
                      else
                        some ((((((year * 500 + mon + 1) * 50 + day) * 50 + hour) * 70 +
                          minute) * 70 + sec) * 10000 +
                          (if sign = '+' then 5000 + digitsToNat [z1, z2, z3, z4]
                           else 5000 - digitsToNat [z1, z2, z3, z4]))
              | _ => none

/-- `Indexer._handle_singlefile_meta` (`indexer.py`, lines 317-335): a
SingleFile banner comment as the first child of the root element sets
`source` and `create`. The `except KeyError` around `root[0]` does not
catch the `IndexError` a childless root raises, and the `strptime` call
on the saved date is not guarded at all: both escape as exceptions. -/
def handle_singlefile_meta (md : MetaDict) (doc : HtmlDoc) : PyResult MetaDict :=
  match doc.children.head? with
  | none => PyResult.exn PyErr.indexError
  | some (DocNode.elem _) => PyResult.ok md
  | some (DocNode.comment text) =>
      match parse_sf_comment text with
      | none => PyResult.ok md
      | some (source, dateStr) =>
          match parse_gmt_date dateStr with
          | none => PyResult.exn PyErr.valueError
          | some dt =>
              PyResult.ok (dset (dset md "source" source) "create" (datetime_to_id dt))

/-- First meta tag with the given `name` attribute and a `content`
attribute (models `root.find('.//meta[@name=...][@content]')`). -/
def findMetaTag (doc : HtmlDoc) (nm : String) : Option MetaTag :=
  doc.metaTags.find? (fun t => t.name = some nm && t.content.isSome)

/-- `Indexer._handle_savepagewe_meta` (`indexer.py`, lines 337-351):
`savepage-url`, `savepage-title` and `savepage-date` meta tags set
`source`, `title` and `create`; the `strptime` on the date is again
unguarded. -/
def handle_savepagewe_meta (md : MetaDict) (doc : HtmlDoc) : PyResult MetaDict :=
  let md1 :=
    match findMetaTag doc "savepage-url" with
    | some t => dset md "source" (t.content.getD "")
    | none => md
  let md2 :=
    match findMetaTag doc "savepage-title" with
    | some t => dset md1 "title" (t.content.getD "")
    | none => md1
  match findMetaTag doc "savepage-date" with
  | some t =>
      match parse_js_date_head (t.content.getD "") with
      | none => PyResult.ok md2
      | some dateStr =>
          match parse_gmt_date dateStr with
          | none => PyResult.exn PyErr.valueError
          | some dt => PyResult.ok (dset md2 "create" (datetime_to_id dt))
  | none => PyResult.ok md2

/-- `Indexer._handle_maoxian_meta` (`indexer.py`, lines 353-368): a
`OriginalSrc:` comment as the first child of the root element sets
`source`; `root[0]` on a childless root again raises. -/
def handle_maoxian_meta (md : MetaDict) (doc : HtmlDoc) : PyResult MetaDict :=
  match doc.children.head? with
  | none => PyResult.exn PyErr.indexError
  | some (DocNode.elem _) => PyResult.ok md
  | some (DocNode.comment text) =>
      match parse_maoxian_comment text with
      | none => PyResult.ok md
      | some source => PyResult.ok (dset md "source" source)

/-- The four `handle_*` switches of `Indexer.__init__` (all default on). -/
structure IndexerConfig where
  ieMeta : Bool := true
  singlefileMeta : Bool := true
  savepageweMeta : Bool := true
  maoxianMeta : Bool := true
deriving DecidableEq

/-- The extractor pass of `Indexer._index_file` (lines 195-206): IE,
SingleFile, SavePageWE and MaoXian run in this fixed order on the same
metadata dict. -/
def run_extractors (cfg : IndexerConfig) (md : MetaDict) (doc : HtmlDoc) :
    PyResult MetaDict :=
  let m1 := if cfg.ieMeta then handle_ie_meta md doc else md
  match (if cfg.singlefileMeta then handle_singlefile_meta m1 doc else PyResult.ok m1) with
  | PyResult.exn e => PyResult.exn e
  | PyResult.ok m2 =>
      match (if cfg.savepageweMeta then handle_savepagewe_meta m2 doc
             else PyResult.ok m2) with
      | PyResult.exn e => PyResult.exn e
      | PyResult.ok m3 =>
          if cfg.maoxianMeta then handle_maoxian_meta m3 doc else PyResult.ok m3

/-!
## FavIcon cacher (`indexer.py`, `FavIconCacher`)
-/

/-- Failures of `urllib.request.urlopen` that the cacher catches. -/
inductive FetchErr where
  | urlError
  | valueError
  | binasciiError
deriving DecidableEq

/-- External capabilities of the indexer: network fetch, filesystem
reads, archive member reads, MAFF page lists, file stat times,
`util.get_relative_url` and the `mimetypes` tables. -/
structure World where
  urlopen : String → Except FetchErr (Option String × List Nat)
  readFile : String → Option (List Nat)
  archiveRead : String → String → Option (List Nat)
  maffPages : String → List (Option String)
  fileStat : String → Option (Nat × Nat)
  relUrl : String → String → Bool → String
  guessMime : String → Option String
  guessExtension : String → Option String

/-- The book as seen by the indexer. `SPECIAL_ITEM_ID` and
`ITEM_INDEX_ALLOWED_EXT` live on the external `Book` class and are kept
as fields. -/
structure IdxBook where
  meta : List (String × MetaDict)
  dataDir : String
  treeDir : String
  specialIds : List String
  allowedExts : List String

/-- Modelled from the spec: `util.is_archive`, archive-type content files
detected by extension. -/
def is_archive (p : String) : Bool :=
  let e := (splitext (strToLower p)).2
  e = ".htz" || e = ".maff"

/-- Modelled from the spec: `util.is_maff`. -/
def is_maff (p : String) : Bool :=
  (splitext (strToLower p)).2 = ".maff"

/-- `mime_to_extension` (`indexer.py`, lines 128-138). -/
def mime_to_extension (w : World) (mime : String) : String :=
  match lookupA COMMON_MIME_EXTENSION mime with
  | some e => e
  | none => (w.guessExtension mime).getD ""

/-- The three `cache_*` switches of `FavIconCacher.__init__`. -/
structure CacherConfig where
  cacheUrl : Bool := true
  cacheArchive : Bool := false
  cacheFile : Bool := false
deriving DecidableEq

/-- `self.favicon_dir`: the favicon cache directory with a trailing
separator. -/
def favicon_dir (book : IdxBook) : String :=
  joinPath book.treeDir "favicon" ++ "/"

/-- The `cache_fh` closure of `_cache_favicon_absolute_url` (lines
450-473): hash the bytes, derive the target name `hash + extension`,
reuse an existing file of that name or write a new one. Returns the new
filesystem, the events and the cache file path. -/
def cache_fh (w : World) (book : IdxBook) (fs : FState) (now : Nat)
    (id sourceUrl mime : String) (bytes_ : List Nat) :
    FState × List Info × String :=
  let hash := natToDecString (checksum bytes_)
  let ext := mime_to_extension w mime
  let fdst := joinPath (joinPath book.treeDir "favicon") (hash ++ ext)
  match lookupA fs.files fdst with
  | some _ =>
      (fs, [Info.mk "info" ("Use saved favicon for " ++ sourceUrl ++ " for " ++ id ++
        " at " ++ fdst)], fdst)
  | none =>
      (fsWrite fs fdst bytes_ now,
        [Info.mk "info" ("Saving favicon " ++ sourceUrl ++ " for " ++ id ++
          " at " ++ fdst)], fdst)

/-- `FavIconCacher._cache_favicon_absolute_url` (lines 436-499): fetch the
URL, validate the declared MIME type, cache the bytes, and rewrite the
icon field of the item to the cache path relative to its content
directory. `URLError`, `ValueError` and `binascii.Error` are caught. -/
def cache_favicon_absolute_url (w : World) (book : IdxBook) (fs : FState) (now : Nat)
    (id index url : String) (sourceUrl0 : Option String) :
    IdxBook × FState × List Info × Option String :=
  let sourceUrl := sourceUrl0.getD url
  match w.urlopen url with
  | Except.error FetchErr.urlError =>
      (book, fs, [Info.mk "error" ("Unable to cache favicon " ++ sourceUrl ++ " for " ++
        id ++ ": unable to fetch favicon URL.")], none)
  | Except.error _ =>
      (book, fs, [Info.mk "error" ("Unable to cache favicon " ++ sourceUrl ++ " for " ++
        id ++ ": unsupported or malformatted URL")], none)
  | Except.ok (ctype, bytes_) =>
      match parse_content_type ctype with
      | none =>
          (book, fs, [Info.mk "error" ("Unable to cache favicon " ++ sourceUrl ++
            " for " ++ id ++ ": unknown MIME type")], none)
      | some m =>
          if m = "" then
            (book, fs, [Info.mk "error" ("Unable to cache favicon " ++ sourceUrl ++
              " for " ++ id ++ ": unknown MIME type")], none)
          else if !(strStartsWith m "image/" || m = "application/octet-stream") then
            (book, fs, [Info.mk "error" ("Unable to cache favicon " ++ sourceUrl ++
              " for " ++ id ++ ": invalid image MIME type " ++ m)], none)
          else
            let r := cache_fh w book fs now id sourceUrl m bytes_
            let newIcon := w.relUrl r.2.2 (joinPath book.dataDir (dirnamePath index)) false
            let md := (lookupA book.meta id).getD []
            let book2 := { book with meta := updateA book.meta id (dset md "icon" newIcon) }
            (book2, r.1, r.2.1, some r.2.2)

/-- `FavIconCacher._get_archive_favicon` (lines 501-529): read the icon
bytes out of the zip container (resolving the MAFF primary page) and
return them as a data URL; every failure is caught and reported. -/
def get_archive_favicon (w : World) (book : IdxBook) (id index url subpath : String) :
    List Info × Option String :=
  let file := joinPath book.dataDir index
  let readZip := fun (sp : String) =>
    match w.archiveRead file sp with
    | none =>
        (([Info.mk "error" ("Failed to read archive favicon " ++ url ++ " for " ++ id)],
          none) : List Info × Option String)
    | some bytes_ =>
        let mime := (w.guessMime sp).getD "application/octet-stream"
        ([], some ("data:" ++ mime ++ ";base64," ++ String.mk (base64encode bytes_)))
  if is_maff index then
    match (w.maffPages file).head? with
    | none =>
        ([Info.mk "error" ("Failed to read archive favicon " ++ url ++ " for " ++ id ++
          ": page not found in MAFF")], none)
    | some none =>
        ([Info.mk "error" ("Failed to read archive favicon " ++ url ++ " for " ++ id ++
          ": index file not found in MAFF")], none)
    | some (some refpath) => readZip (dirnamePath refpath ++ "/" ++ subpath)
  else readZip subpath

/-- `FavIconCacher._get_file_favicon` (lines 531-549): read a plain
relative icon file and return it as a data URL. A failed read emits an
error event, but the `except OSError` branch does not return: execution
falls through to the data-URL construction and raises
`UnboundLocalError` on the unbound `bytes_`. -/
def get_file_favicon (w : World) (book : IdxBook) (id index url subpath : String) :
    List Info × PyResult (Option String) :=
  let file := normPath (joinPath (joinPath (joinPath book.dataDir index) "..") subpath)
  if strStartsWith file (favicon_dir book) then
    ([Info.mk "debug" ("Skipped favicon " ++ url ++ " for " ++ id ++
      ": already in favicon folder")], PyResult.ok none)
  else
    match w.readFile file with
    | some bytes_ =>
        let mime := (w.guessMime subpath).getD "application/octet-stream"
        ([], PyResult.ok (some ("data:" ++ mime ++ ";base64," ++
          String.mk (base64encode bytes_))))
    | none =>
        ([Info.mk "error" ("Failed to read archive favicon " ++ url ++ " for " ++ id)],
          PyResult.exn PyErr.nameError)

/-- `FavIconCacher._cache_favicon` (lines 396-434): dispatch on the icon
URL shape and the configuration. -/
def cache_favicon (w : World) (cfg : CacherConfig) (book : IdxBook) (fs : FState)
    (now : Nat) (id : String) :
    IdxBook × FState × List Info × PyResult (Option String) :=
  let ev0 := Info.mk "debug" ("Caching favicon for " ++ id ++ "...")
  let md := (lookupA book.meta id).getD []
  match dget md "icon" with
  | none =>
      (book, fs, [ev0, Info.mk "debug" ("Skipped for " ++ id ++
        ": no favicon to cache.")], PyResult.ok none)
  | some url =>
      if url = "" then
        (book, fs, [ev0, Info.mk "debug" ("Skipped for " ++ id ++
          ": no favicon to cache.")], PyResult.ok none)
      else
        let urlparts := urlsplit url
        let index := sget md "index"
        if urlparts.scheme ≠ "" then
          if cfg.cacheUrl then
            let r := cache_favicon_absolute_url w book fs now id index url none
            (r.1, r.2.1, ev0 :: r.2.2.1, PyResult.ok r.2.2.2)
          else (book, fs, [ev0], PyResult.ok none)
        else if urlparts.netloc ≠ "" then (book, fs, [ev0], PyResult.ok none)
        else if urlparts.path = "" then (book, fs, [ev0], PyResult.ok none)
        else if is_archive index then
          if cfg.cacheArchive then
            let a := get_archive_favicon w book id index url (unquote urlparts.path)
            match a.2 with
            | some dataurl =>
                let r := cache_favicon_absolute_url w book fs now id index dataurl (some url)
                (r.1, r.2.1, ev0 :: a.1 ++ r.2.2.1, PyResult.ok r.2.2.2)
            | none => (book, fs, ev0 :: a.1, PyResult.ok none)
          else (book, fs, [ev0], PyResult.ok none)
        else if cfg.cacheFile then
          let a := get_file_favicon w book id index url (unquote urlparts.path)
          match a.2 with
          | PyResult.exn e => (book, fs, ev0 :: a.1, PyResult.exn e)
          | PyResult.ok (some dataurl) =>
              let r := cache_favicon_absolute_url w book fs now id index dataurl (some url)
              (r.1, r.2.1, ev0 :: a.1 ++ r.2.2.1, PyResult.ok r.2.2.2)
          | PyResult.ok none => (book, fs, ev0 :: a.1, PyResult.ok none)
        else (book, fs, [ev0], PyResult.ok none)

/-- `FavIconCacher.run` (lines 381-394): cache each requested id that is
present in the store; an uncaught exception aborts the remaining ids. -/
def favicon_cacher_run (w : World) (cfg : CacherConfig) (book : IdxBook) (fs : FState)
    (now : Nat) (ids : List String) :
    IdxBook × FState × List Info × PyResult (List (String × String)) :=
  match ids with
  | [] => (book, fs, [], PyResult.ok [])
  | id :: rest =>
      if (lookupA book.meta id).isSome then
        let r := cache_favicon w cfg book fs now id
        match r.2.2.2 with
        | PyResult.exn e => (r.1, r.2.1, r.2.2.1, PyResult.exn e)
        | PyResult.ok cf =>
            let rr := favicon_cacher_run w cfg r.1 r.2.1 now rest
            match rr.2.2.2 with
            | PyResult.exn e => (rr.1, rr.2.1, r.2.2.1 ++ rr.2.2.1, PyResult.exn e)
            | PyResult.ok cached =>
                (rr.1, rr.2.1, r.2.2.1 ++ rr.2.2.1,
                  PyResult.ok (match cf with
                    | some f => (id, f) :: cached
                    | none => cached))
      else
        favicon_cacher_run w cfg book fs now rest

/-!
## Indexer (`indexer.py`, `Indexer._index_file` and `Indexer.run`)
-/

/-- `HTML_TITLE_EXCLUDE_PARENTS` (`indexer.py`, lines 22-26). -/
def HTML_TITLE_EXCLUDE_PARENTS : List String := ["xmp", "svg", "template"]

/-- The ancestor check of `iter_title_elems`. -/
def title_elem_ok (t : TitleElem) : Bool :=
  t.ancestors.all (fun p => !(p ∈ HTML_TITLE_EXCLUDE_PARENTS))

/-- `iter_title_elems` (`indexer.py`, lines 106-118): title elements with
no excluded ancestor, in document order. -/
def iter_title_elems (doc : HtmlDoc) : List TitleElem :=
  doc.titleElems.filter title_elem_ok

/-- `iter_favicon_elems` (`indexer.py`, lines 121-125) iterated to the
end: every `link` element whose `rel` tokens contain `icon`; a `link`
without a `rel` attribute makes `None.lower()` raise `AttributeError`. -/
def iter_favicon_elems (links : List LinkElem) : PyResult (List LinkElem) :=
  match links with
  | [] => PyResult.ok []
  | l :: rest =>
      match l.rel with
      | none => PyResult.exn PyErr.attributeError
      | some r =>
          if "icon" ∈ strTokens (strToLower r) then
            match iter_favicon_elems rest with
            | PyResult.exn e => PyResult.exn e
            | PyResult.ok ls => PyResult.ok (l :: ls)
          else iter_favicon_elems rest

/-- `next(iter_favicon_elems(tree), None)`: the generator is consumed
lazily, stopping at the first matching element. -/
def first_favicon_elem (links : List LinkElem) : PyResult (Option LinkElem) :=
  match links with
  | [] => PyResult.ok none
  | l :: rest =>
      match l.rel with
      | none => PyResult.exn PyErr.attributeError
      | some r =>
          if "icon" ∈ strTokens (strToLower r) then PyResult.ok (some l)
          else first_favicon_elem rest

/-- `generate_item_title` (`indexer.py`, lines 51-60): infer a title from
the last path segment of an absolute source URL. -/
def generate_item_title (md : MetaDict) : Option String :=
  match dget md "source" with
  | some src =>
      if src ≠ "" then
        let parts := urlsplit src
        if parts.scheme ≠ "" then
          let title := basenamePath (unquote parts.path)
          if title ≠ "" then some title else none
        else none
      else none
  | none => none

/-- `generate_item_create` (`indexer.py`, lines 63-84): canonical id, then
ctime of the index file, then the `modify` field. The metadata dict of
the id is passed directly (the store entry is the same object). -/
def generate_item_create (w : World) (dataDir : String) (md : MetaDict) (id : String) :
    Option String :=
  match id_to_datetime id with
  | some dt => some (datetime_to_id dt)
  | none =>
      let fromIndex :=
        match dget md "index" with
        | some index =>
            if index ≠ "" then
              match w.fileStat (joinPath dataDir index) with
              | some st => some (datetime_to_id st.1)
              | none => none
            else none
        | none => none
      match fromIndex with
      | some c => some c
      | none =>
          match dget md "modify" with
          | some m => if m ≠ "" then some m else none
          | none => none

/-- `generate_item_modify` (`indexer.py`, lines 87-103): mtime of the
index file, then the `create` field. -/
def generate_item_modify (w : World) (dataDir : String) (md : MetaDict) (id : String) :
    Option String :=
  let fromIndex :=
    match dget md "index" with
    | some index =>
        if index ≠ "" then
          match w.fileStat (joinPath dataDir index) with
          | some st => some (datetime_to_id st.2)
          | none => none
        else none
    | none => none
  match fromIndex with
  | some m => some m
  | none =>
      match dget md "create" with
      | some c => if c ≠ "" then some c else none
      | none => none

/-- Modelled from the spec: `Book.DEFAULT_META` (external `book.py`),
every item attribute initialised to `None`. -/
def DEFAULT_META : MetaDict :=
  [("id", none), ("index", none), ("title", none), ("type", none),
   ("create", none), ("modify", none), ("source", none), ("icon", none),
   ("comment", none)]

/-- `dict.pop(key)`: drop a key from the dict. -/
def removeA {α : Type} (m : List (String × α)) (k : String) : List (String × α) :=
  m.filter (fun p => decide (p.1 ≠ k))

/-- `os.path.relpath(p, base)` for a file under the base directory. -/
def relPathTo (base p : String) : String :=
  if strStartsWith p (base ++ "/") then strDrop p (base ++ "/").length else p

/-- A candidate file handed to the indexer: its path, whether it exists,
and the parse outcome when it is read as a web document. -/
structure IdxFile where
  path : String
  isFile : Bool
  doc : Option HtmlDoc
deriving Inhabited

/-- The extractor phase of `_index_file` (lines 192-211): default
metadata, the four extractors, then the `data-scrapbook-*` root
attributes merged on top (explicit attributes win). -/
def index_file_meta (cfg : IndexerConfig) (doc? : Option HtmlDoc) : PyResult MetaDict :=
  match doc? with
  | none => PyResult.ok DEFAULT_META
  | some doc =>
      match run_extractors cfg DEFAULT_META doc with
      | PyResult.exn e => PyResult.exn e
      | PyResult.ok md =>
          PyResult.ok (doc.rootAttrs.foldl
            (fun m kv =>
              if strStartsWith kv.1 "data-scrapbook-" then updateA m (strDrop kv.1 15) (some kv.2)
              else m)
            md)

/-- The title computed from the document (lines 252-264), before the
source-URL fallback: the first valid title element, or `none` when there
is none or serializing it fails (which only logs an error). -/
def extracted_title (doc? : Option HtmlDoc) : Option String × List Info :=
  match doc? with
  | none => (none, [])
  | some doc =>
      match (iter_title_elems doc).head? with
      | none => (none, [])
      | some te =>
          if te.decodeFails then
            (none, [Info.mk "error" "Failed to extract title"])
          else (some ((te.text.getD "") ++ te.childMarkup), [])

/-- The icon-filling step of `_index_file` (lines 275-281): when `icon`
is still `None`, take the `href` of the first favicon link element of a
web document (the empty string when there is none or it has no `href`),
or the empty string for an opaque file. The lazy favicon iteration can
raise `AttributeError`. -/
def fill_icon (doc? : Option HtmlDoc) (md : MetaDict) : PyResult MetaDict :=
  match dget md "icon" with
  | some _ => PyResult.ok md
  | none =>
      match doc? with
      | some doc =>
          match first_favicon_elem doc.linkElems with
          | PyResult.exn e => PyResult.exn e
          | PyResult.ok (some l) => PyResult.ok (dset md "icon" (l.href.getD ""))
          | PyResult.ok none => PyResult.ok (dset md "icon" "")
      | none => PyResult.ok (dset md "icon" "")

/-- Attribute filling of `_index_file` once the id is decided (lines
241-294): register the item, fill `index`, `type`, `title`, `create`,
`modify` and `icon`, run the favicon cacher on this id, and default
`source` and `comment`. The registered dict is aliased by the store, so
at every exception point the store holds the metadata filled so far. -/
def index_file_fill (w : World) (book : IdxBook) (fs : FState) (now : Nat)
    (file : IdxFile) (doc? : Option HtmlDoc) (md : MetaDict) (id : String)
    (evs0 : List Info) : IdxBook × FState × List Info × PyResult (Option String) :=
  let isWebpage := doc?.isSome
  let index := relPathTo book.dataDir file.path
  let md2 := dset md "index" index
  let md3 :=
    match dget md2 "type" with
    | some t => if t = "" then dset md2 "type" (if isWebpage then "" else "file") else md2
    | none => dset md2 "type" (if isWebpage then "" else "file")
  let titleStep : MetaDict × List Info :=
    match dget md3 "title" with
    | some _ => (md3, [])
    | none =>
        let (t0, tevs) := extracted_title doc?
        let t1 :=
          match t0 with
          | some t => if strTrim t = "" then generate_item_title md3 else some t
          | none => generate_item_title md3
        (dset md3 "title" (t1.getD ""), tevs)
  let md4 := titleStep.1
  let md5 :=
    match dget md4 "create" with
    | some c =>
        if c = "" then dset md4 "create" ((generate_item_create w book.dataDir md4 id).getD "")
        else md4
    | none => dset md4 "create" ((generate_item_create w book.dataDir md4 id).getD "")
  let md6 :=
    match dget md5 "modify" with
    | some m =>
        if m = "" then dset md5 "modify" ((generate_item_modify w book.dataDir md5 id).getD "")
        else md5
    | none => dset md5 "modify" ((generate_item_modify w book.dataDir md5 id).getD "")
  match fill_icon doc? md6 with
  | PyResult.exn e =>
      ({ book with meta := updateA book.meta id md6 }, fs, evs0 ++ titleStep.2, PyResult.exn e)
  | PyResult.ok md7 =>
      let book1 : IdxBook := { book with meta := updateA book.meta id md7 }
      let r := favicon_cacher_run w { cacheUrl := true, cacheArchive := true, cacheFile := false }
        book1 fs now [id]
      match r.2.2.2 with
      | PyResult.exn e => (r.1, r.2.1, evs0 ++ titleStep.2 ++ r.2.2.1, PyResult.exn e)
      | PyResult.ok _ =>
          let md8 := (lookupA r.1.meta id).getD md7
          let md9 :=
            match dget md8 "source" with
            | some _ => md8
            | none => dset md8 "source" ""
          let md10 :=
            match dget md9 "comment" with
            | some _ => md9
            | none => dset md9 "comment" ""
          ({ r.1 with meta := updateA r.1.meta id md10 }, r.2.1,
            evs0 ++ titleStep.2 ++ r.2.2.1, PyResult.ok (some id))

/-- Id resolution of `_index_file` (lines 213-239): an explicit
`data-scrapbook-id` that is already used or reserved rejects the file
with an error event and no registration at all; otherwise the id is the
explicit one or is derived from the file name. -/
def index_file_register (w : World) (book : IdxBook) (fs : FState) (now : Nat)
    (file : IdxFile) (doc? : Option HtmlDoc) (md0 : MetaDict) (evs0 : List Info) :
    IdxBook × FState × List Info × PyResult (Option String) :=
  let explicitId := dget md0 "id"
  let md := removeA md0 "id"
  match explicitId with
  | some i =>
      if i ≠ "" then
        if i ∈ keysA book.meta then
          (book, fs, evs0 ++ [Info.mk "error" ("Specified ID " ++ i ++ " is already used.")],
            PyResult.ok none)
        else if i ∈ book.specialIds then
          (book, fs, evs0 ++ [Info.mk "error" ("Specified ID " ++ i ++ " is invalid.")],
            PyResult.ok none)
        else index_file_fill w book fs now file doc? md i evs0
      else
        index_file_fill w book fs now file doc? md
          (resolve_derived_id (keysA book.meta) (relPathTo book.dataDir file.path) now) evs0
  | none =>
      index_file_fill w book fs now file doc? md
        (resolve_derived_id (keysA book.meta) (relPathTo book.dataDir file.path) now) evs0

/-- `Indexer._index_file` (lines 168-294). -/
def index_file (w : World) (cfg : IndexerConfig) (book : IdxBook) (fs : FState)
    (now : Nat) (file : IdxFile) : IdxBook × FState × List Info × PyResult (Option String) :=
  let subpath := relPathTo book.dataDir file.path
  let ev0 := Info.mk "debug" ("Indexing " ++ subpath ++ "...")
  if !file.isFile then
    (book, fs, [ev0, Info.mk "error" ("File " ++ subpath ++ " does not exist.")],
      PyResult.ok none)
  else
    let ext := (splitext (strToLower file.path)).2
    if ext ∈ book.allowedExts then
      match file.doc with
      | none =>
          (book, fs, [ev0, Info.mk "error" ("Failed to read document from file " ++ subpath)],
            PyResult.ok none)
      | some tree =>
          if tree.rootTag ≠ "html" then
            (book, fs, [ev0, Info.mk "error" ("No html element in file " ++ subpath)],
              PyResult.ok none)
          else
            match index_file_meta cfg (some tree) with
            | PyResult.exn e => (book, fs, [ev0], PyResult.exn e)
            | PyResult.ok md0 =>
                index_file_register w book fs now file (some tree) md0 [ev0]
    else
      match index_file_meta cfg none with
      | PyResult.exn e => (book, fs, [ev0], PyResult.exn e)
      | PyResult.ok md0 => index_file_register w book fs now file none md0 [ev0]

/-- `Indexer.run` (lines 156-166): index each file in turn; an uncaught
exception from one file aborts the whole batch. -/
def indexer_run (w : World) (cfg : IndexerConfig) (book : IdxBook) (fs : FState)
    (now : Nat) (files : List IdxFile) :
    IdxBook × FState × List Info × PyResult (List String) :=
  match files with
  | [] => (book, fs, [], PyResult.ok [])
  | f :: rest =>
      let r := index_file w cfg book fs now f
      match r.2.2.2 with
      | PyResult.exn e => (r.1, r.2.1, r.2.2.1, PyResult.exn e)
      | PyResult.ok idOpt =>
          let evAdd :=
            match idOpt with
            | some id =>
                [Info.mk "info" ("Added item " ++ id ++ " for " ++
                  relPathTo book.dataDir f.path ++ ".")]
            | none => []
          let rr := indexer_run w cfg r.1 r.2.1 now rest
          match rr.2.2.2 with
          | PyResult.exn e => (rr.1, rr.2.1, r.2.2.1 ++ evAdd ++ rr.2.2.1, PyResult.exn e)
          | PyResult.ok ids =>
              (rr.1, rr.2.1, r.2.2.1 ++ evAdd ++ rr.2.2.1,
                PyResult.ok (match idOpt with
                  | some id => id :: ids
                  | none => ids))

/-!
## Example data used by witnesses and counterexamples
-/

/-- A book whose TOC contains a self-cycle: item `A` lists itself as a
child. -/
def exCycleBook : CacheBook :=
  { meta := [("A", [("title", some "Item A")])],
    toc := [("root", ["A"]), ("A", ["A"])],
    dataDir := "data", treeDir := "tree",
    relUrl := fun t b _ => t ++ "|" ++ b }

/-- The rendered events of item `A` of `exCycleBook` at a given level. -/
def exItemA (level : Nat) (ev : String) : StaticIndexItem :=
  { event := ev, level := level, id := some "A", type := some "",
    marked := some "", title := some "Item A", url := some "",
    icon := some "", source := some "", comment := some "" }

/-- C1: For every metadata store and TOC, including cyclic ones, the
static-index walk terminates — the walker is a total function, defined by
well-founded recursion on the number of metadata ids not yet on the
ancestor chain — and when a child id is already on the current ancestor
chain, exactly one `start`/`end` event pair (with identical display
fields and nothing in between) is emitted for that occurrence, so its
own children are not expanded. -/
theorem C1_cyclic_child_emits_single_pair (book : CacheBook) (chain : List String)
    (id : String) (rest : List String) (level : Nat) (md : MetaDict)
    (hmd : lookupA book.meta id = some md) (hchain : id ∈ chain) :
    child_items_loop book chain (id :: rest) level =
      static_index_entry "start" book id md level ::
        static_index_entry "end" book id md level ::
        child_items_loop book chain rest level := by
  rw [child_items_loop]
  split
  · simp_all
  · rename_i md2 heq
    rw [hmd] at heq
    cases heq
    rw [dif_pos hchain]
    simp

/-- Witness for C1 at the self-cycle of `exCycleBook`: the second
occurrence of `A` (already on the chain) yields exactly its `start` and
`end` events. -/
theorem C1_cyclic_child_emits_single_pair_witness :
    child_items_loop exCycleBook ["A", "root"] ["A"] 3 =
      static_index_entry "start" exCycleBook "A" [("title", some "Item A")] 3 ::
        static_index_entry "end" exCycleBook "A" [("title", some "Item A")] 3 ::
        child_items_loop exCycleBook ["A", "root"] [] 3 :=
  C1_cyclic_child_emits_single_pair exCycleBook ["A", "root"] "A" [] 3
    [("title", some "Item A")] (by rfl) (by decide)

/-- C2: the Site Builder renders to an in-memory buffer and skips the
write (and its backup) entirely when the destination already holds
content of identical byte length and identical checksum; consequently a
second run over the same artifacts leaves the filesystem — contents and
mtimes — exactly as the first run left it. -/
theorem C2_incremental_write_policy :
    (∀ fs now dst rendered c, lookupA fs.files dst = some c →
        rendered.length = c.length → checksum rendered = checksum c →
        (generate_page fs now dst rendered).1 = fs) ∧
    (∀ fs now src dst c, lookupA fs.files dst = some c →
        src.length = c.length → checksum src = checksum c →
        (generate_resource_file fs now src dst).1 = fs) ∧
    (∀ fs now1 now2 arts, (arts.map Artifact.dst).Nodup →
        build_run (build_run fs now1 arts) now2 arts = build_run fs now1 arts) := by
  refine ⟨?_, ?_, ?_⟩
  · intro fs now dst rendered c hc hlen hsum
    rw [generate_page_skip fs now dst rendered c hc hlen hsum]
  · intro fs now src dst c hc hlen hsum
    rw [generate_resource_file_skip fs now src dst c hc hlen hsum]
  · intro fs now1 now2 arts hnodup
    exact build_run_idempotent fs now1 now2 arts hnodup

/-- A small filesystem that already holds the rendered bytes of
`map.html`. -/
def exFS : FState :=
  { files := [("tree/map.html", [1, 2, 3])], mtimes := [("tree/map.html", 0)] }

/-- Two artifacts with distinct destinations. -/
def exArts : List Artifact :=
  [{ dst := "tree/icon/item.png", content := [7, 7], isResource := true },
   { dst := "tree/map.html", content := [1, 2, 3], isResource := false }]

/-- Witness for C2: an up-to-date page write is skipped with the state
untouched, and re-running the builder over concrete artifacts is a
no-op. -/
theorem C2_incremental_write_policy_witness :
    (generate_page exFS 5 "tree/map.html" [1, 2, 3]).1 = exFS ∧
    build_run (build_run exFS 1 exArts) 2 exArts = build_run exFS 1 exArts :=
  ⟨C2_incremental_write_policy.1 exFS 5 "tree/map.html" [1, 2, 3] [1, 2, 3]
      (by rfl) (by rfl) (by rfl),
    C2_incremental_write_policy.2.2 exFS 1 2 exArts (by decide)⟩

/-- C6: when the indexer synthesizes an id it starts from the current
timestamp and increments by one millisecond while the id is taken, so a
derived id is never one already in the store, and indexing two files that
derive the same timestamp yields two distinct ids. -/
theorem C6_timestamp_collision_resolution :
    (∀ metaIds ts, gen_new_id_loop metaIds ts ∉ metaIds) ∧
    (∀ metaIds basepath now,
        resolve_derived_id metaIds basepath now ∉ metaIds ∧
        resolve_derived_id (resolve_derived_id metaIds basepath now :: metaIds)
            basepath now ≠ resolve_derived_id metaIds basepath now) := by
  constructor
  · exact gen_new_id_loop_not_mem
  · intro metaIds basepath now
    constructor
    · exact resolve_derived_id_not_mem metaIds basepath now
    · intro heq
      have h2 := resolve_derived_id_not_mem
        (resolve_derived_id metaIds basepath now :: metaIds) basepath now
      rw [heq] at h2
      exact h2 (List.mem_cons_self _ _)

/-- Witness for C6: with the store holding the id for timestamp 7, a
first and a second synthesized id from the same timestamp are distinct
and unused. -/
theorem C6_timestamp_collision_resolution_witness :
    resolve_derived_id [datetime_to_id 7] "x.bin" 7 ∉ [datetime_to_id 7] ∧
    resolve_derived_id
        (resolve_derived_id [datetime_to_id 7] "x.bin" 7 :: [datetime_to_id 7])
        "x.bin" 7 ≠ resolve_derived_id [datetime_to_id 7] "x.bin" 7 :=
  C6_timestamp_collision_resolution.2 [datetime_to_id 7] "x.bin" 7

theorem dget_dset_self (md : MetaDict) (k v : String) : dget (dset md k v) k = some v := by
  simp [dget, dset, lookupA_updateA_self]

theorem dget_dset_ne (md : MetaDict) (k k2 v : String) (h : k ≠ k2) :
    dget (dset md k v) k2 = dget md k2 := by
  simp [dget, dset, lookupA_updateA_ne md k k2 (some v) h]

/-- A document carrying both an IE `saved from url` comment before the
root element and a MaoXian `OriginalSrc` comment as its first child. -/
def exC3Doc : HtmlDoc :=
  { rootTag := "html",
    prevNode := some (DocNode.comment "saved from url=(18)http://example.com"),
    children := [DocNode.comment "OriginalSrc: http://other.example/"],
    metaTags := [], titleElems := [], linkElems := [], rootAttrs := [] }

/-- C3 counterexample: the IE extractor (first in order) sets `source` to
`http://example.com`, yet the full extractor pass over the same document
returns `source = http://other.example/` — the later MaoXian extractor
overwrote a field already set by an earlier extractor, contradicting the
claim. -/
theorem C3_counterexample_overwrite :
    dget (handle_ie_meta DEFAULT_META exC3Doc) "source" = some "http://example.com" ∧
    run_extractors {} DEFAULT_META exC3Doc =
      PyResult.ok (dset DEFAULT_META "source" "http://other.example/") := by
  constructor
  · decide
  · decide

/-- C3 (amended): the provenance extractors run in the fixed order IE,
SingleFile, SavePageWE, MaoXian, but a later matching extractor
overwrites fields set by an earlier one — the last writer wins: whenever
the MaoXian extractor matches, the final `source` is its URL, whatever
the earlier extractors set. -/
theorem C3_amended_last_writer_wins (cfg : IndexerConfig) (md : MetaDict)
    (doc : HtmlDoc) (m : MetaDict) (text src : String)
    (hcfg : cfg.maoxianMeta = true)
    (hok : run_extractors cfg md doc = PyResult.ok m)
    (hhd : doc.children.head? = some (DocNode.comment text))
    (hpm : parse_maoxian_comment text = some src) :
    dget m "source" = some src := by
  simp only [run_extractors] at hok
  cases hsf : (if cfg.singlefileMeta then
      handle_singlefile_meta (if cfg.ieMeta then handle_ie_meta md doc else md) doc
    else PyResult.ok (if cfg.ieMeta then handle_ie_meta md doc else md)) with
  | exn e => simp only [hsf] at hok; cases hok
  | ok m2 =>
      simp only [hsf] at hok
      cases hsp : (if cfg.savepageweMeta then handle_savepagewe_meta m2 doc
          else PyResult.ok m2) with
      | exn e => simp only [hsp] at hok; cases hok
      | ok m3 =>
          simp only [hsp] at hok
          simp only [hcfg, if_true, handle_maoxian_meta, hhd, hpm] at hok
          cases hok
          exact dget_dset_self m3 "source" src

/-- Witness for the amended C3 at `exC3Doc`: the MaoXian URL is the final
`source`. -/
theorem C3_amended_last_writer_wins_witness :
    dget (dset DEFAULT_META "source" "http://other.example/") "source" =
      some "http://other.example/" :=
  C3_amended_last_writer_wins {} DEFAULT_META exC3Doc
    (dset DEFAULT_META "source" "http://other.example/")
    "OriginalSrc: http://other.example/" "http://other.example/"
    (by rfl) (by decide) (by rfl) (by decide)

/-- The favicon test of `iter_favicon_elems`: the lowercased `rel`
tokens contain `icon` (the total `getD` is only meaningful when `rel` is
present). -/
def has_icon_rel (l : LinkElem) : Bool :=
  decide ("icon" ∈ strTokens (strToLower (l.rel.getD "")))

theorem iter_favicon_elems_all_rel (links : List LinkElem)
    (h : ∀ l ∈ links, (l.rel).isSome = true) :
    iter_favicon_elems links = PyResult.ok (links.filter has_icon_rel) := by
  induction links with
  | nil => rfl
  | cons l rest ih =>
      have hrest := fun x hx => h x (List.mem_cons_of_mem l hx)
      cases hrel : l.rel with
      | none => have := h l (List.mem_cons_self l rest); rw [hrel] at this; cases this
      | some r =>
          rw [iter_favicon_elems, hrel]
          by_cases hic : "icon" ∈ strTokens (strToLower r)
          · simp only [hic, if_true, ih hrest]
            have hpred : has_icon_rel l = true := by
              simp [has_icon_rel, hrel, hic]
            simp [List.filter_cons, hpred]
          · simp only [hic, if_false, ih hrest]
            have hpred : has_icon_rel l = false := by
              simp [has_icon_rel, hrel, hic]
            simp [List.filter_cons, hpred]

theorem iter_favicon_elems_missing_rel (links : List LinkElem)
    (h : ∃ l ∈ links, l.rel = none) :
    iter_favicon_elems links = PyResult.exn PyErr.attributeError := by
  induction links with
  | nil => obtain ⟨l, hl, _⟩ := h; cases hl
  | cons l rest ih =>
      obtain ⟨w, hw, hwrel⟩ := h
      cases hrel : l.rel with
      | none => rw [iter_favicon_elems, hrel]
      | some r =>
          have hwrest : w ∈ rest := by
            rcases List.mem_cons.mp hw with h1 | h1
            · subst h1; rw [hrel] at hwrel; cases hwrel
            · exact h1
          have hrec := ih ⟨w, hwrest, hwrel⟩
          rw [iter_favicon_elems, hrel]
          by_cases hic : "icon" ∈ strTokens (strToLower r)
          · simp only [hic, if_true, hrec]
          · simp only [hic, if_false, hrec]

theorem first_favicon_elem_all_rel (links : List LinkElem)
    (h : ∀ l ∈ links, (l.rel).isSome = true) :
    first_favicon_elem links = PyResult.ok ((links.filter has_icon_rel).head?) := by
  induction links with
  | nil => rfl
  | cons l rest ih =>
      have hrest := fun x hx => h x (List.mem_cons_of_mem l hx)
      cases hrel : l.rel with
      | none => have := h l (List.mem_cons_self l rest); rw [hrel] at this; cases this
      | some r =>
          rw [first_favicon_elem, hrel]
          by_cases hic : "icon" ∈ strTokens (strToLower r)
          · have hpred : has_icon_rel l = true := by simp [has_icon_rel, hrel, hic]
            simp [hic, List.filter_cons, hpred]
          · have hpred : has_icon_rel l = false := by simp [has_icon_rel, hrel, hic]
            simp [hic, List.filter_cons, hpred, ih hrest]

/-- C10: favicon-link extraction is total exactly when every `link`
element carries a `rel` attribute (a missing one raises
`AttributeError`); under that precondition it yields exactly the links
whose lowercased whitespace-split `rel` contains the token `icon`, and
the icon-filling step of indexing sets `icon` to the `href` of the first
such link (empty string when there is no such link or it has no
`href`). -/
theorem C10_favicon_link_extraction :
    (∀ links : List LinkElem, (∀ l ∈ links, (l.rel).isSome = true) →
        iter_favicon_elems links = PyResult.ok (links.filter has_icon_rel)) ∧
    (∀ links : List LinkElem, (∃ l ∈ links, l.rel = none) →
        iter_favicon_elems links = PyResult.exn PyErr.attributeError) ∧
    (∀ (doc : HtmlDoc) (md : MetaDict), dget md "icon" = none →
        (∀ l ∈ doc.linkElems, (l.rel).isSome = true) →
        fill_icon (some doc) md = PyResult.ok (dset md "icon"
          (match (doc.linkElems.filter has_icon_rel).head? with
           | some l => l.href.getD ""
           | none => ""))) := by
  refine ⟨iter_favicon_elems_all_rel, iter_favicon_elems_missing_rel, ?_⟩
  intro doc md hicon h
  rw [fill_icon, hicon, first_favicon_elem_all_rel doc.linkElems h]
  cases hh : (doc.linkElems.filter has_icon_rel).head? with
  | none => rfl
  | some l => rfl

/-- A document with a stylesheet link, a favicon link, and a link with no
`rel` attribute at all. -/
def exC10Doc : HtmlDoc :=
  { rootTag := "html", prevNode := none, children := [DocNode.elem "head"],
    metaTags := [], titleElems := [],
    linkElems := [{ rel := some "stylesheet", href := some "s.css" },
                  { rel := some "shortcut ICON", href := some "fav.ico" }],
    rootAttrs := [] }

/-- Witness for C10: on `exC10Doc` the iteration keeps exactly the
favicon link and the icon field becomes its `href`; a variant list with a
`rel`-less link raises. -/
theorem C10_favicon_link_extraction_witness :
    iter_favicon_elems exC10Doc.linkElems =
      PyResult.ok [{ rel := some "shortcut ICON", href := some "fav.ico" }] ∧
    iter_favicon_elems ({ rel := none, href := some "x" } :: exC10Doc.linkElems) =
      PyResult.exn PyErr.attributeError ∧
    fill_icon (some exC10Doc) DEFAULT_META =
      PyResult.ok (dset DEFAULT_META "icon" "fav.ico") := by
  refine ⟨?_, ?_, ?_⟩
  · have h := C10_favicon_link_extraction.1 exC10Doc.linkElems (by decide)
    rw [h]
    decide
  · exact C10_favicon_link_extraction.2.1 _ ⟨{ rel := none, href := some "x" },
      List.mem_cons_self _ _, rfl⟩
  · have h := C10_favicon_link_extraction.2.2 exC10Doc DEFAULT_META (by rfl) (by decide)
    rw [h]
    decide

/-- A world where every external fetch, read or stat fails. -/
def exWorld : World :=
  { urlopen := fun _ => Except.error FetchErr.urlError,
    readFile := fun _ => none,
    archiveRead := fun _ _ => none,
    maffPages := fun _ => [],
    fileStat := fun _ => none,
    relUrl := fun t _ _ => t,
    guessMime := fun _ => none,
    guessExtension := fun _ => none }

/-- A web document whose first child is a SingleFile banner comment with
an unparsable saved date. -/
def exC4BadDoc : HtmlDoc :=
  { rootTag := "html", prevNode := none,
    children := [DocNode.comment
      " Page saved with SingleFile url: http://example.com/ saved date: INVALID"],
    metaTags := [], titleElems := [], linkElems := [], rootAttrs := [] }

/-- An empty book accepting `.html` web documents. -/
def exC4Book : IdxBook :=
  { meta := [], dataDir := "data", treeDir := "tree",
    specialIds := ["root", "hidden", "recycle"], allowedExts := [".html"] }

/-- An empty filesystem. -/
def exFS0 : FState := { files := [], mtimes := [] }

/-- The file with the malformed SingleFile date. -/
def exC4BadFile : IdxFile := { path := "data/bad.html", isFile := true, doc := some exC4BadDoc }

/-- A second, perfectly indexable file queued after the bad one. -/
def exC4GoodFile : IdxFile := { path := "data/good.txt", isFile := true, doc := none }

/-- C4 fails on the code: an unparsable SingleFile saved date makes the
unguarded `datetime.strptime` raise `ValueError`, which `Indexer.run`
does not catch — the batch aborts with no per-file `error` event, and the
remaining file is never indexed (the store is left empty). -/
theorem C4_singlefile_date_aborts_batch :
    (indexer_run exWorld {} exC4Book exFS0 0 [exC4BadFile, exC4GoodFile]).2.2.2 =
      PyResult.exn PyErr.valueError ∧
    (indexer_run exWorld {} exC4Book exFS0 0 [exC4BadFile, exC4GoodFile]).2.2.1.all
      (fun e => e.sev ≠ "error") = true ∧
    (indexer_run exWorld {} exC4Book exFS0 0 [exC4BadFile, exC4GoodFile]).1.meta = [] := by
  refine ⟨?_, ?_, ?_⟩ <;> decide

/-- A book with two items whose icons are plain relative paths. -/
def exC5Book : IdxBook :=
  { meta := [("A", [("icon", some "missing.png"), ("index", some "a/page.html")]),
             ("B", [("icon", some "other.png"), ("index", some "b/page.html")])],
    dataDir := "data", treeDir := "tree",
    specialIds := ["root", "hidden", "recycle"], allowedExts := [".html"] }

/-- C5 fails on the code for file-based icons: when the icon file cannot
be read, `_get_file_favicon` emits the `error` event but its
`except OSError` branch does not return, so the following use of the
unbound `bytes_` raises `UnboundLocalError` and the batch aborts — the
second id is never processed. -/
theorem C5_file_favicon_read_failure_aborts :
    (favicon_cacher_run exWorld { cacheUrl := true, cacheArchive := false, cacheFile := true }
        exC5Book exFS0 0 ["A", "B"]).2.2.2 = PyResult.exn PyErr.nameError ∧
    Info.mk "error" "Failed to read archive favicon missing.png for A" ∈
      (favicon_cacher_run exWorld { cacheUrl := true, cacheArchive := false, cacheFile := true }
        exC5Book exFS0 0 ["A", "B"]).2.2.1 := by
  refine ⟨?_, ?_⟩ <;> decide
/-- The cache target path for given bytes and MIME type. -/
def favicon_target (w : World) (book : IdxBook) (mime : String) (bytes_ : List Nat) : String :=
  joinPath (joinPath book.treeDir "favicon") (natToDecString (checksum bytes_) ++ mime_to_extension w mime)

theorem cache_fh_write (w : World) (book : IdxBook) (fs : FState) (now : Nat)
    (id su mime : String) (bytes_ : List Nat)
    (hfresh : lookupA fs.files (favicon_target w book mime bytes_) = none) :
    cache_fh w book fs now id su mime bytes_ =
      (fsWrite fs (favicon_target w book mime bytes_) bytes_ now,
       [Info.mk "info" ("Saving favicon " ++ su ++ " for " ++ id ++ " at " ++
         favicon_target w book mime bytes_)],
       favicon_target w book mime bytes_) := by
  simp only [cache_fh, favicon_target] at hfresh ⊢
  rw [hfresh]

theorem cache_fh_reuse (w : World) (book : IdxBook) (fs : FState) (now : Nat)
    (id su mime : String) (bytes_ c : List Nat)
    (hhit : lookupA fs.files (favicon_target w book mime bytes_) = some c) :
    cache_fh w book fs now id su mime bytes_ =
      (fs,
       [Info.mk "info" ("Use saved favicon for " ++ su ++ " for " ++ id ++ " at " ++
         favicon_target w book mime bytes_)],
       favicon_target w book mime bytes_) := by
  simp only [cache_fh, favicon_target] at hhit ⊢
  rw [hhit]

theorem cache_favicon_absolute_ok (w : World) (cfg : CacherConfig) (book : IdxBook)
    (fs : FState) (now : Nat) (id url mime : String) (md : MetaDict)
    (ct : Option String) (bytes_ : List Nat)
    (hmd : lookupA book.meta id = some md)
    (hicon : dget md "icon" = some url)
    (hscheme : (urlsplit url).scheme ≠ "")
    (hcfg : cfg.cacheUrl = true)
    (hu : w.urlopen url = Except.ok (ct, bytes_))
    (hm : parse_content_type ct = some mime)
    (hm1 : mime ≠ "")
    (hm2 : (strStartsWith mime "image/" || mime = "application/octet-stream") = true) :
    cache_favicon w cfg book fs now id =
      ({ book with meta := updateA book.meta id (dset md "icon"
          (w.relUrl (cache_fh w book fs now id url mime bytes_).2.2
            (joinPath book.dataDir (dirnamePath (sget md "index"))) false)) },
       (cache_fh w book fs now id url mime bytes_).1,
       Info.mk "debug" ("Caching favicon for " ++ id ++ "...") ::
         (cache_fh w book fs now id url mime bytes_).2.1,
       PyResult.ok (some (cache_fh w book fs now id url mime bytes_).2.2)) := by
  have hurl : ¬(url = "") := by
    intro h
    rw [h] at hscheme
    exact hscheme rfl
  simp only [cache_favicon, hmd, Option.getD, hicon, hurl, if_false]
  rw [if_pos hscheme]
  rw [hcfg]
  simp only [if_true]
  simp only [cache_favicon_absolute_url, hu, hm]
  rw [if_neg hm1]
  rw [hm2]
  simp only [Bool.not_true, Bool.false_eq_true, if_false]
  simp only [hmd, Option.getD]

/-- C8 (amended): favicon caching is content-addressed by the byte hash
plus the MIME-derived extension, and an existing cache file of that name
is reused without rewriting; hence caching icons with identical bytes AND
identical MIME-derived extension for two different items creates exactly
one cache file, and both items get their `icon` field rewritten to that
one file, relative to each item's own content directory. -/
theorem C8_amended_dedup_identical_bytes_and_extension (w : World) (cfg : CacherConfig) (book : IdxBook)
    (fs : FState) (now : Nat) (idA idB urlA urlB mimeA mimeB : String)
    (mdA mdB : MetaDict) (ctA ctB : Option String) (bytes_ : List Nat)
    (hA : lookupA book.meta idA = some mdA)
    (hB : lookupA book.meta idB = some mdB)
    (hAB : idA ≠ idB)
    (hiA : dget mdA "icon" = some urlA)
    (hiB : dget mdB "icon" = some urlB)
    (hsA : (urlsplit urlA).scheme ≠ "")
    (hsB : (urlsplit urlB).scheme ≠ "")
    (hcfg : cfg.cacheUrl = true)
    (huA : w.urlopen urlA = Except.ok (ctA, bytes_))
    (huB : w.urlopen urlB = Except.ok (ctB, bytes_))
    (hmA : parse_content_type ctA = some mimeA)
    (hmB : parse_content_type ctB = some mimeB)
    (hvA1 : mimeA ≠ "")
    (hvA2 : (strStartsWith mimeA "image/" || mimeA = "application/octet-stream") = true)
    (hvB1 : mimeB ≠ "")
    (hvB2 : (strStartsWith mimeB "image/" || mimeB = "application/octet-stream") = true)
    (hext : mime_to_extension w mimeA = mime_to_extension w mimeB)
    (hfresh : lookupA fs.files (favicon_target w book mimeA bytes_) = none) :
    (favicon_cacher_run w cfg book fs now [idA, idB]).2.1.files =
      updateA fs.files (favicon_target w book mimeA bytes_) bytes_ ∧
    dget ((lookupA (favicon_cacher_run w cfg book fs now [idA, idB]).1.meta idA).getD [])
        "icon" =
      some (w.relUrl (favicon_target w book mimeA bytes_)
        (joinPath book.dataDir (dirnamePath (sget mdA "index"))) false) ∧
    dget ((lookupA (favicon_cacher_run w cfg book fs now [idA, idB]).1.meta idB).getD [])
        "icon" =
      some (w.relUrl (favicon_target w book mimeA bytes_)
        (joinPath book.dataDir (dirnamePath (sget mdB "index"))) false) ∧
    (favicon_cacher_run w cfg book fs now [idA, idB]).2.2.2 =
      PyResult.ok [(idA, favicon_target w book mimeA bytes_),
                   (idB, favicon_target w book mimeA bytes_)] := by
  have hcfA := cache_favicon_absolute_ok w cfg book fs now idA urlA mimeA mdA ctA bytes_
    hA hiA hsA hcfg huA hmA hvA1 hvA2
  have hfhA := cache_fh_write w book fs now idA urlA mimeA bytes_ hfresh
  rw [hfhA] at hcfA
  set fdst := favicon_target w book mimeA bytes_ with hfdst
  set vA := w.relUrl fdst (joinPath book.dataDir (dirnamePath (sget mdA "index"))) false with hvA
  set book2 : IdxBook := { book with meta := updateA book.meta idA (dset mdA "icon" vA) }
    with hbook2
  set fs2 := fsWrite fs fdst bytes_ now with hfs2
  have hB2 : lookupA book2.meta idB = some mdB := by
    rw [hbook2]
    show lookupA (updateA book.meta idA (dset mdA "icon" vA)) idB = some mdB
    rw [lookupA_updateA_ne book.meta idA idB _ hAB]
    exact hB
  have htgt2 : favicon_target w book2 mimeB bytes_ = fdst := by
    rw [hfdst]
    show joinPath (joinPath book.treeDir "favicon")
        (natToDecString (checksum bytes_) ++ mime_to_extension w mimeB) = _
    rw [← hext]
    rfl
  have hcfB := cache_favicon_absolute_ok w cfg book2 fs2 now idB urlB mimeB mdB ctB bytes_
    hB2 hiB hsB hcfg huB hmB hvB1 hvB2
  have hhit2 : lookupA fs2.files (favicon_target w book2 mimeB bytes_) = some bytes_ := by
    rw [htgt2, hfs2]
    show lookupA (updateA fs.files fdst bytes_) fdst = some bytes_
    exact lookupA_updateA_self fs.files fdst bytes_
  have hfhB := cache_fh_reuse w book2 fs2 now idB urlB mimeB bytes_ bytes_ hhit2
  rw [htgt2] at hfhB
  rw [hfhB] at hcfB
  set vB := w.relUrl fdst (joinPath book2.dataDir (dirnamePath (sget mdB "index"))) false
    with hvB
  have hrun : favicon_cacher_run w cfg book fs now [idA, idB] =
      ({ book2 with meta := updateA book2.meta idB (dset mdB "icon" vB) },
       fs2,
       (Info.mk "debug" ("Caching favicon for " ++ idA ++ "...") ::
         [Info.mk "info" ("Saving favicon " ++ urlA ++ " for " ++ idA ++ " at " ++ fdst)]) ++
       ((Info.mk "debug" ("Caching favicon for " ++ idB ++ "...") ::
         [Info.mk "info" ("Use saved favicon for " ++ urlB ++ " for " ++ idB ++ " at " ++
           fdst)]) ++ []),
       PyResult.ok [(idA, fdst), (idB, fdst)]) := by
    rw [favicon_cacher_run]
    rw [hA]
    simp only [Option.isSome, if_true]
    rw [hcfA]
    simp only
    rw [favicon_cacher_run]
    rw [hB2]
    simp only [Option.isSome, if_true]
    rw [hcfB]
    simp only [favicon_cacher_run]
  rw [hrun]
  refine ⟨rfl, ?_, ?_, rfl⟩
  · show dget ((lookupA (updateA book2.meta idB (dset mdB "icon" vB)) idA).getD [])
        "icon" = some vA
    rw [lookupA_updateA_ne book2.meta idB idA _ (Ne.symm hAB)]
    rw [hbook2]
    show dget ((lookupA (updateA book.meta idA (dset mdA "icon" vA)) idA).getD []) "icon" = _
    rw [lookupA_updateA_self]
    exact dget_dset_self mdA "icon" vA
  · show dget ((lookupA (updateA book2.meta idB (dset mdB "icon" vB)) idB).getD [])
        "icon" = some (w.relUrl fdst (joinPath book.dataDir (dirnamePath (sget mdB "index"))) false)
    rw [lookupA_updateA_self]
    show dget (dset mdB "icon" vB) "icon" = _
    rw [dget_dset_self, hvB]

/-- A world serving identical icon bytes under three URLs: two declared
as `image/png`, one as `image/gif`. -/
def exC8World : World :=
  { exWorld with
      urlopen := fun u =>
        if u = "http://x/i1" then Except.ok (some "image/png", [1, 2, 3])
        else if u = "http://x/i2" then Except.ok (some "image/gif", [1, 2, 3])
        else if u = "http://x/i3" then Except.ok (some "image/png", [1, 2, 3])
        else Except.error FetchErr.urlError,
      guessExtension := fun m =>
        if m = "image/png" then some ".png"
        else if m = "image/gif" then some ".gif"
        else none }

/-- Two items whose icons resolve to identical bytes with different
declared MIME types. -/
def exC8Book : IdxBook :=
  { meta := [("A", [("icon", some "http://x/i1"), ("index", some "a/p.html")]),
             ("B", [("icon", some "http://x/i2"), ("index", some "b/p.html")])],
    dataDir := "data", treeDir := "tree",
    specialIds := ["root", "hidden", "recycle"], allowedExts := [".html"] }

/-- C8 counterexample: the two icons have byte-identical content, yet
because their declared MIME types differ the derived extensions differ
and TWO cache files are created — "identical bytes" alone does not give
one cache file. -/
theorem C8_counterexample_two_files_for_identical_bytes :
    exC8World.urlopen "http://x/i1" = Except.ok (some "image/png", [1, 2, 3]) ∧
    exC8World.urlopen "http://x/i2" = Except.ok (some "image/gif", [1, 2, 3]) ∧
    (favicon_cacher_run exC8World {} exC8Book exFS0 0 ["A", "B"]).2.1.files.length = 2 := by
  refine ⟨rfl, rfl, ?_⟩
  decide

/-- Two items whose icons resolve to identical bytes with the same
declared MIME type. -/
def exC8SameBook : IdxBook :=
  { meta := [("A", [("icon", some "http://x/i1"), ("index", some "a/p.html")]),
             ("B", [("icon", some "http://x/i3"), ("index", some "b/p.html")])],
    dataDir := "data", treeDir := "tree",
    specialIds := ["root", "hidden", "recycle"], allowedExts := [".html"] }

/-- Witness for the amended C8: identical bytes and identical extension
yield exactly one cache file, referenced by both rewritten icons. -/
theorem C8_amended_dedup_identical_bytes_and_extension_witness :
    (favicon_cacher_run exC8World {} exC8SameBook exFS0 0 ["A", "B"]).2.1.files =
      updateA exFS0.files (favicon_target exC8World exC8SameBook "image/png" [1, 2, 3])
        [1, 2, 3] ∧
    dget ((lookupA (favicon_cacher_run exC8World {} exC8SameBook exFS0 0
        ["A", "B"]).1.meta "A").getD []) "icon" =
      some (exC8World.relUrl (favicon_target exC8World exC8SameBook "image/png" [1, 2, 3])
        (joinPath exC8SameBook.dataDir (dirnamePath
          (sget [("icon", some "http://x/i1"), ("index", some "a/p.html")] "index"))) false) ∧
    dget ((lookupA (favicon_cacher_run exC8World {} exC8SameBook exFS0 0
        ["A", "B"]).1.meta "B").getD []) "icon" =
      some (exC8World.relUrl (favicon_target exC8World exC8SameBook "image/png" [1, 2, 3])
        (joinPath exC8SameBook.dataDir (dirnamePath
          (sget [("icon", some "http://x/i3"), ("index", some "b/p.html")] "index"))) false) ∧
    (favicon_cacher_run exC8World {} exC8SameBook exFS0 0 ["A", "B"]).2.2.2 =
      PyResult.ok [("A", favicon_target exC8World exC8SameBook "image/png" [1, 2, 3]),
                   ("B", favicon_target exC8World exC8SameBook "image/png" [1, 2, 3])] :=
  C8_amended_dedup_identical_bytes_and_extension exC8World {} exC8SameBook exFS0 0
    "A" "B" "http://x/i1" "http://x/i3" "image/png" "image/png"
    [("icon", some "http://x/i1"), ("index", some "a/p.html")]
    [("icon", some "http://x/i3"), ("index", some "b/p.html")]
    (some "image/png") (some "image/png") [1, 2, 3]
    (by rfl) (by rfl) (by decide) (by rfl) (by rfl) (by decide) (by decide)
    (by rfl) (by rfl) (by rfl) (by rfl) (by rfl) (by decide) (by decide)
    (by decide) (by decide) (by rfl) (by rfl)
theorem cache_favicon_absolute_url_meta_frame (w : World) (book : IdxBook) (fs : FState)
    (now : Nat) (id index url : String) (su : Option String) (x : String) (hx : x ≠ id) :
    lookupA (cache_favicon_absolute_url w book fs now id index url su).1.meta x =
      lookupA book.meta x := by
  simp only [cache_favicon_absolute_url]
  repeat' split
  all_goals first
    | rfl
    | exact lookupA_updateA_ne _ _ _ _ (Ne.symm hx)

theorem cache_favicon_meta_frame (w : World) (cfg : CacherConfig) (book : IdxBook)
    (fs : FState) (now : Nat) (id x : String) (hx : x ≠ id) :
    lookupA (cache_favicon w cfg book fs now id).1.meta x = lookupA book.meta x := by
  simp only [cache_favicon]
  repeat' split
  all_goals first
    | rfl
    | exact cache_favicon_absolute_url_meta_frame w book fs now id _ _ _ x hx

theorem favicon_cacher_run_meta_frame (w : World) (cfg : CacherConfig) (book : IdxBook)
    (fs : FState) (now : Nat) (ids : List String) (x : String) (hx : x ∉ ids) :
    lookupA (favicon_cacher_run w cfg book fs now ids).1.meta x = lookupA book.meta x := by
  induction ids generalizing book fs with
  | nil => rfl
  | cons id rest ih =>
      have hxid : x ≠ id := fun h => hx (h ▸ List.mem_cons_self id rest)
      have hxrest : x ∉ rest := fun h => hx (List.mem_cons_of_mem id h)
      simp only [favicon_cacher_run]
      split
      · split
        · exact cache_favicon_meta_frame w cfg book fs now id x hxid
        · split
          · rw [ih _ _ hxrest]
            exact cache_favicon_meta_frame w cfg book fs now id x hxid
          · rw [ih _ _ hxrest]
            exact cache_favicon_meta_frame w cfg book fs now id x hxid
      · exact ih book fs hxrest

theorem index_file_fill_meta_frame (w : World) (book : IdxBook) (fs : FState) (now : Nat)
    (file : IdxFile) (doc? : Option HtmlDoc) (md : MetaDict) (id : String)
    (evs0 : List Info) (x : String) (hx : x ≠ id) :
    lookupA (index_file_fill w book fs now file doc? md id evs0).1.meta x =
      lookupA book.meta x := by
  have hxid : x ∉ [id] := by
    intro h
    exact hx (List.mem_singleton.mp h)
  simp only [index_file_fill]
  split
  · exact lookupA_updateA_ne _ _ _ _ (Ne.symm hx)
  · split
    · rw [favicon_cacher_run_meta_frame _ _ _ _ _ _ _ hxid]
      exact lookupA_updateA_ne _ _ _ _ (Ne.symm hx)
    · rw [lookupA_updateA_ne _ _ _ _ (Ne.symm hx)]
      rw [favicon_cacher_run_meta_frame _ _ _ _ _ _ _ hxid]
      exact lookupA_updateA_ne _ _ _ _ (Ne.symm hx)

theorem index_file_register_preserves (w : World) (book : IdxBook) (fs : FState)
    (now : Nat) (file : IdxFile) (doc? : Option HtmlDoc) (md0 : MetaDict)
    (evs0 : List Info) (x : String) (v : MetaDict)
    (hv : lookupA book.meta x = some v) :
    lookupA (index_file_register w book fs now file doc? md0 evs0).1.meta x = some v := by
  have hxk : x ∈ keysA book.meta := mem_keysA_of_lookupA _ _ _ hv
  have hderived : x ≠ resolve_derived_id (keysA book.meta)
      (relPathTo book.dataDir file.path) now := by
    intro h
    exact resolve_derived_id_not_mem (keysA book.meta)
      (relPathTo book.dataDir file.path) now (h ▸ hxk)
  simp only [index_file_register]
  split
  · rename_i i hi
    split
    · split
      · exact hv
      · split
        · exact hv
        · rename_i hne hnotmem hnotspec
          have hxi : x ≠ i := by
            intro h
            exact hnotmem (h ▸ hxk)
          rw [index_file_fill_meta_frame _ _ _ _ _ _ _ _ _ _ hxi]
          exact hv
    · rw [index_file_fill_meta_frame _ _ _ _ _ _ _ _ _ _ hderived]
      exact hv
  · rw [index_file_fill_meta_frame _ _ _ _ _ _ _ _ _ _ hderived]
    exact hv

theorem index_file_preserves (w : World) (cfg : IndexerConfig) (book : IdxBook)
    (fs : FState) (now : Nat) (file : IdxFile) (x : String) (v : MetaDict)
    (hv : lookupA book.meta x = some v) :
    lookupA (index_file w cfg book fs now file).1.meta x = some v := by
  simp only [index_file]
  split
  · exact hv
  · split
    · split
      · exact hv
      · split
        · exact hv
        · split
          · exact hv
          · exact index_file_register_preserves _ _ _ _ _ _ _ _ _ _ hv
    · split
      · exact hv
      · exact index_file_register_preserves _ _ _ _ _ _ _ _ _ _ hv

theorem indexer_run_preserves (w : World) (cfg : IndexerConfig) (book : IdxBook)
    (fs : FState) (now : Nat) (files : List IdxFile) (x : String) (v : MetaDict)
    (hv : lookupA book.meta x = some v) :
    lookupA (indexer_run w cfg book fs now files).1.meta x = some v := by
  induction files generalizing book fs with
  | nil => exact hv
  | cons f rest ih =>
      have h1 := index_file_preserves w cfg book fs now f x v hv
      simp only [indexer_run]
      split
      · exact h1
      · split
        · exact ih _ _ h1
        · exact ih _ _ h1

theorem index_file_register_rejects_used (w : World) (book : IdxBook) (fs : FState)
    (now : Nat) (file : IdxFile) (doc? : Option HtmlDoc) (md0 : MetaDict)
    (evs0 : List Info) (i : String)
    (hdget : dget md0 "id" = some i) (hne : i ≠ "") (hmem : i ∈ keysA book.meta) :
    index_file_register w book fs now file doc? md0 evs0 =
      (book, fs, evs0 ++ [Info.mk "error" ("Specified ID " ++ i ++ " is already used.")],
        PyResult.ok none) := by
  simp only [index_file_register, hdget]
  rw [if_pos hne, if_pos hmem]

theorem index_file_register_rejects_reserved (w : World) (book : IdxBook) (fs : FState)
    (now : Nat) (file : IdxFile) (doc? : Option HtmlDoc) (md0 : MetaDict)
    (evs0 : List Info) (i : String)
    (hdget : dget md0 "id" = some i) (hne : i ≠ "") (hnot : i ∉ keysA book.meta)
    (hspec : i ∈ book.specialIds) :
    index_file_register w book fs now file doc? md0 evs0 =
      (book, fs, evs0 ++ [Info.mk "error" ("Specified ID " ++ i ++ " is invalid.")],
        PyResult.ok none) := by
  simp only [index_file_register, hdget]
  rw [if_pos hne, if_neg hnot, if_pos hspec]

/-- C7: indexing preserves key-uniqueness of the metadata store. An
explicit id that is already used, or reserved, makes the file rejected
with an `error` event and the store and filesystem left exactly as they
were (no partial registration); and no indexing step — including whole
batches — ever changes the entry of an id already present in the store. -/
theorem C7_store_key_uniqueness :
    (∀ w book fs now file doc? md0 evs0 i,
        dget md0 "id" = some i → i ≠ "" → i ∈ keysA book.meta →
        index_file_register w book fs now file doc? md0 evs0 =
          (book, fs,
           evs0 ++ [Info.mk "error" ("Specified ID " ++ i ++ " is already used.")],
           PyResult.ok none)) ∧
    (∀ w book fs now file doc? md0 evs0 i,
        dget md0 "id" = some i → i ≠ "" → i ∉ keysA book.meta →
        i ∈ book.specialIds →
        index_file_register w book fs now file doc? md0 evs0 =
          (book, fs,
           evs0 ++ [Info.mk "error" ("Specified ID " ++ i ++ " is invalid.")],
           PyResult.ok none)) ∧
    (∀ w cfg book fs now file x v, lookupA book.meta x = some v →
        lookupA (index_file w cfg book fs now file).1.meta x = some v) ∧
    (∀ w cfg book fs now files x v, lookupA book.meta x = some v →
        lookupA (indexer_run w cfg book fs now files).1.meta x = some v) := by
  refine ⟨?_, ?_, ?_, ?_⟩
  · intro w book fs now file doc? md0 evs0 i h1 h2 h3
    exact index_file_register_rejects_used w book fs now file doc? md0 evs0 i h1 h2 h3
  · intro w book fs now file doc? md0 evs0 i h1 h2 h3 h4
    exact index_file_register_rejects_reserved w book fs now file doc? md0 evs0 i h1 h2 h3 h4
  · intro w cfg book fs now file x v hv
    exact index_file_preserves w cfg book fs now file x v hv
  · intro w cfg book fs now files x v hv
    exact indexer_run_preserves w cfg book fs now files x v hv

/-- A book already holding item `I`. -/
def exC7Book : IdxBook :=
  { meta := [("I", [("title", some "t")])], dataDir := "data", treeDir := "tree",
    specialIds := ["root", "hidden", "recycle"], allowedExts := [".html"] }

/-- A document that explicitly requests the already-used id `I`. -/
def exC7Doc : HtmlDoc :=
  { rootTag := "html", prevNode := none, children := [DocNode.elem "head"],
    metaTags := [], titleElems := [], linkElems := [],
    rootAttrs := [("data-scrapbook-id", "I")] }

/-- The file carrying `exC7Doc`. -/
def exC7File : IdxFile := { path := "data/dup.html", isFile := true, doc := some exC7Doc }

/-- Witness for C7: the duplicate explicit id is rejected with the store
and filesystem untouched, and indexing the file leaves the existing entry
of `I` intact. -/
theorem C7_store_key_uniqueness_witness :
    index_file_register exWorld exC7Book exFS0 0 exC7File (some exC7Doc)
        [("id", some "I")] [] =
      (exC7Book, exFS0,
       [] ++ [Info.mk "error" ("Specified ID " ++ "I" ++ " is already used.")],
       PyResult.ok none) ∧
    lookupA (index_file exWorld {} exC7Book exFS0 0 exC7File).1.meta "I" =
      some [("title", some "t")] :=
  ⟨C7_store_key_uniqueness.1 exWorld exC7Book exFS0 0 exC7File (some exC7Doc)
      [("id", some "I")] [] "I" (by rfl) (by decide) (by decide),
   C7_store_key_uniqueness.2.2.1 exWorld {} exC7Book exFS0 0 exC7File "I"
      [("title", some "t")] (by rfl)⟩
/-- A frame of the well-nestedness checker: an open container or an open
item `start` event. -/
inductive Frame where
  | container (level : Nat)
  | item (ev : StaticIndexItem)
deriving DecidableEq

/-- One step of the well-nestedness checker: `start-container` opens a
container one level above the enclosing item (or at level 0 at the top),
`start` opens an item one level above the enclosing container,
`end-container` and `end` close the matching frame with equal level and,
for items, equal display fields. -/
def processEvent (s : List Frame) (e : StaticIndexItem) : Option (List Frame) :=
  if e.event = "start-container" then
    match s with
    | [] => if e.level = 0 then some [Frame.container e.level] else none
    | Frame.item it :: _ =>
        if it.level + 1 = e.level then some (Frame.container e.level :: s) else none
    | Frame.container _ :: _ => none
  else if e.event = "end-container" then
    match s with
    | Frame.container l :: s2 => if l = e.level then some s2 else none
    | _ => none
  else if e.event = "start" then
    match s with
    | Frame.container l :: _ => if l + 1 = e.level then some (Frame.item e :: s) else none
    | _ => none
  else if e.event = "end" then
    match s with
    | Frame.item it :: s2 => if it = { e with event := "start" } then some s2 else none
    | _ => none
  else none

/-- Run the checker over an event list. -/
def processEvents : List StaticIndexItem → List Frame → Option (List Frame)
  | [], s => some s
  | e :: rest, s =>
      match processEvent s e with
      | none => none
      | some s2 => processEvents rest s2

theorem processEvents_append (a b : List StaticIndexItem) (s : List Frame) :
    processEvents (a ++ b) s = (processEvents a s).bind (fun s2 => processEvents b s2) := by
  induction a generalizing s with
  | nil => rfl
  | cons e rest ih =>
      show processEvents (e :: (rest ++ b)) s = _
      simp only [processEvents]
      cases h : processEvent s e with
      | none => simp [h]
      | some s2 => simp [h, ih s2]

theorem processEvent_start (l : Nat) (s2 : List Frame) (e : StaticIndexItem)
    (he : e.event = "start") (hl : l + 1 = e.level) :
    processEvent (Frame.container l :: s2) e = some (Frame.item e :: Frame.container l :: s2) := by
  simp [processEvent, he, hl]

theorem processEvent_end_match (book : CacheBook) (id : String) (md : MetaDict)
    (level : Nat) (s2 : List Frame) :
    processEvent (Frame.item (static_index_entry "start" book id md level) :: s2)
      (static_index_entry "end" book id md level) = some s2 := by
  have hev : (static_index_entry "end" book id md level).event = "end" := rfl
  have heqi : static_index_entry "start" book id md level =
      { static_index_entry "end" book id md level with event := "start" } := rfl
  simp [processEvent, hev, heqi]

theorem processEvent_sc_empty :
    processEvent [] (containerItem "start-container" 0) = some [Frame.container 0] := by
  rfl

theorem processEvent_sc_item (it : StaticIndexItem) (s2 : List Frame) (level : Nat)
    (hl : it.level + 1 = level) :
    processEvent (Frame.item it :: s2) (containerItem "start-container" level) =
      some (Frame.container level :: Frame.item it :: s2) := by
  simp [processEvent, containerItem, hl]

theorem processEvent_ec (l : Nat) (s2 : List Frame) :
    processEvent (Frame.container l :: s2) (containerItem "end-container" l) = some s2 := by
  simp [processEvent, containerItem]

theorem processEvents_cons (e : StaticIndexItem) (rest : List StaticIndexItem)
    (s s2 : List Frame) (h : processEvent s e = some s2) :
    processEvents (e :: rest) s = processEvents rest s2 := by
  rw [processEvents, h]

/-- Stack shapes in which a `start-container` event at the given level is
legal: the very top of the walk, or just under an open item one level
below. -/
def scAllowed (level : Nat) (s : List Frame) : Prop :=
  (s = [] ∧ level = 0) ∨ (∃ it s2, s = Frame.item it :: s2 ∧ it.level + 1 = level)

theorem add_child_items_balanced (book : CacheBook) :
    ∀ c : Nat, ∀ chain : List String, chainlessCount book chain ≤ c →
      ∀ parent level s, scAllowed level s →
        processEvents (add_child_items book chain parent level) s = some s := by
  intro c
  induction c using Nat.strong_induction_on with
  | _ c ih =>
      intro chain hc parent level s hs
      have hloop : ∀ ids level2 l s2, l + 1 = level2 →
          processEvents (child_items_loop book chain ids level2)
            (Frame.container l :: s2) = some (Frame.container l :: s2) := by
        intro ids
        induction ids with
        | nil =>
            intro level2 l s2 _
            rw [child_items_loop]
            rfl
        | cons id rest ihids =>
            intro level2 l s2 hl
            rw [child_items_loop]
            split
            · exact ihids level2 l s2 hl
            · rename_i md heq
              rw [processEvents_cons _ _ _ _
                (processEvent_start l s2 (static_index_entry "start" book id md level2)
                  rfl hl)]
              rw [processEvents_append]
              have hinner : processEvents
                  (if hid : id ∈ chain then []
                   else add_child_items book (id :: chain) id (level2 + 1))
                  (Frame.item (static_index_entry "start" book id md level2) ::
                    Frame.container l :: s2) =
                  some (Frame.item (static_index_entry "start" book id md level2) ::
                    Frame.container l :: s2) := by
                split
                · rfl
                · rename_i hid
                  have hlt : chainlessCount book (id :: chain) < chainlessCount book chain :=
                    chainlessCount_cons_lt book chain id (mem_keysA_of_lookupA _ _ _ heq) hid
                  exact ih (chainlessCount book (id :: chain)) (lt_of_lt_of_le hlt hc)
                    (id :: chain) (le_refl _) id (level2 + 1) _
                    (Or.inr ⟨static_index_entry "start" book id md level2, _, rfl, rfl⟩)
              rw [hinner]
              simp only [Option.some_bind]
              rw [processEvents_cons _ _ _ _ (processEvent_end_match book id md level2 _)]
              exact ihids level2 l s2 hl
      rw [add_child_items]
      split
      · rfl
      · dsimp only
        split
        · rfl
        · rcases hs with ⟨hse, hl0⟩ | ⟨it, s3, hseq, hit⟩
          · subst hse
            subst hl0
            rw [processEvents_cons _ _ _ _ processEvent_sc_empty]
            rw [processEvents_append]
            rw [hloop _ (0 + 1) 0 [] rfl]
            simp only [Option.some_bind]
            rw [processEvents_cons _ _ _ _ (processEvent_ec 0 [])]
            rfl
          · subst hseq
            rw [processEvents_cons _ _ _ _ (processEvent_sc_item it s3 level hit)]
            rw [processEvents_append]
            rw [hloop _ (level + 1) level (Frame.item it :: s3) rfl]
            simp only [Option.some_bind]
            rw [processEvents_cons _ _ _ _ (processEvent_ec level (Frame.item it :: s3))]
            rfl

/-- Checker for the claimed relation between the level of an item and the
level of its children: on each `start` event the level must exceed the
nearest enclosing item level by exactly `gap`. -/
def itemGapOK (gap : Nat) : List StaticIndexItem → List Nat → Bool
  | [], _ => true
  | e :: rest, stack =>
      if e.event = "start" then
        (match stack with
         | [] => true
         | p :: _ => decide (e.level = p + gap)) && itemGapOK gap rest (e.level :: stack)
      else if e.event = "end" then itemGapOK gap rest stack.tail
      else itemGapOK gap rest stack

/-- C9 counterexample: in the walk of the self-cycle book the nested
occurrence of `A` is emitted at level 3 between its parent occurrence at
level 1 — children appear at level TWO greater than their parent item
(the enclosing container sits at one greater), so the claimed
"level one greater" fails. -/
theorem C9_counterexample_child_level :
    generate_static_index exCycleBook =
      [containerItem "start-container" 0, exItemA 1 "start",
       containerItem "start-container" 2, exItemA 3 "start", exItemA 3 "end",
       containerItem "end-container" 2, exItemA 1 "end",
       containerItem "end-container" 0] ∧
    itemGapOK 1 (generate_static_index exCycleBook) [] = false := by
  have h : generate_static_index exCycleBook =
      [containerItem "start-container" 0, exItemA 1 "start",
       containerItem "start-container" 2, exItemA 3 "start", exItemA 3 "end",
       containerItem "end-container" 2, exItemA 1 "end",
       containerItem "end-container" 0] := by
    simp [generate_static_index, add_child_items, child_items_loop, exCycleBook,
      lookupA, static_index_entry, static_item_fields, sget, dget, containerItem,
      exItemA, urlsplit, breakAtChar]
  refine ⟨h, ?_⟩
  rw [h]
  decide

/-- C9 (amended): the event stream of the static-index walk is
well-nested — the checker `processEvent` accepts it, so every
`start-container` is closed by an `end-container` at the same level,
every item `start` is closed by an `end` with identical id, level and
display fields, a nested container sits at one level above its item and
child items at one level above their container (hence two above the
parent item) — and child ids with no metadata entry contribute no events
at all. -/
theorem C9_amended_well_nested (book : CacheBook) :
    processEvents (generate_static_index book) [] = some [] ∧
    (∀ chain id rest level, lookupA book.meta id = none →
        child_items_loop book chain (id :: rest) level =
          child_items_loop book chain rest level) := by
  constructor
  · exact add_child_items_balanced book (chainlessCount book ["root"]) ["root"]
      (le_refl _) "root" 0 [] (Or.inl ⟨rfl, rfl⟩)
  · intro chain id rest level h
    rw [child_items_loop]
    split
    · rfl
    · rename_i md heq
      rw [h] at heq
      cases heq

/-- Witness for the amended C9 at the self-cycle book: the checker
accepts the whole cyclic stream, and a dangling child id is dropped. -/
theorem C9_amended_well_nested_witness :
    processEvents (generate_static_index exCycleBook) [] = some [] ∧
    child_items_loop exCycleBook ["root"] ["X"] 1 =
      child_items_loop exCycleBook ["root"] [] 1 :=
  ⟨(C9_amended_well_nested exCycleBook).1,
   (C9_amended_well_nested exCycleBook).2 ["root"] "X" [] 1 (by rfl)⟩
